import Mathlib

/-!
Verification development for the automatic-voiceover regeneration subsystem
(text normalization over rich markup, content-addressed voiceover cache with
collision policy, speech-synthesis provider, and the orchestrating service).

The definitions below are a shallow embedding of:
  - core/storage/voiceover/gae_models.py   (CachedAutomaticVoiceoversModel)
  - core/domain/voiceover_regeneration_services.py
  - core/platform/azure_speech_synthesis/azure_speech_synthesis_services.py
together with the parts of the Python standard library / third-party
libraries those modules rely on (hashlib.sha256, html.unescape, html.parser
tokenization as used by BeautifulSoup, json string decoding).  Machine
integers are modelled as Nat with explicit reduction modulo 2^32 where the
algorithm requires 32-bit wraparound.
-/

/-! ## Python string utilities -/

/-- Whitespace characters stripped by Python str.strip() (ASCII subset;
the inputs considered in this development contain no non-ASCII spaces). -/
def isPySpace (c : Char) : Bool :=
  c = ' ' || c = '\t' || c = '\n' || c = '\r' || c = Char.ofNat 11 || c = Char.ofNat 12

/-- Python str.strip() on a character list: remove leading and trailing
whitespace. -/
def pstripList (l : List Char) : List Char :=
  ((l.dropWhile isPySpace).reverse.dropWhile isPySpace).reverse

/-- Python str.strip() on strings. -/
def pstrip (s : String) : String :=
  String.mk (pstripList s.data)

/-- ASCII lowercasing of a single character, as Python str.lower() acts on
the ASCII range (tag and attribute names in html.parser are lowercased). -/
def asciiLower (c : Char) : Char :=
  if 'A' ≤ c ∧ c ≤ 'Z' then Char.ofNat (c.toNat + 32) else c

/-- ASCII lowercasing of a character list. -/
def asciiLowerList (l : List Char) : List Char := l.map asciiLower

/-! ## SHA-256 (model of Python hashlib.sha256(...).hexdigest())

CachedAutomaticVoiceoversModel.generate_hash_from_text computes
hashlib.sha256(plaintext.encode()).hexdigest().  We embed SHA-256 (FIPS
180-4) over the UTF-8 encoding of the text, with 32-bit words as Nat
reduced modulo 2^32. -/

/-- 2^32, the modulus for 32-bit words. -/
def M32 : Nat := 4294967296

/-- Addition modulo 2^32. -/
def add32 (a b : Nat) : Nat := (a + b) % M32

/-- Right rotation of a 32-bit word. -/
def rotr32 (n x : Nat) : Nat := ((x >>> n) ||| ((x % 2 ^ n) <<< (32 - n))) % M32

/-- Bitwise complement of a 32-bit word. -/
def not32 (x : Nat) : Nat := Nat.xor x (M32 - 1)

/-- SHA-256 small sigma 0. -/
def ssig0 (x : Nat) : Nat := Nat.xor (Nat.xor (rotr32 7 x) (rotr32 18 x)) (x >>> 3)

/-- SHA-256 small sigma 1. -/
def ssig1 (x : Nat) : Nat := Nat.xor (Nat.xor (rotr32 17 x) (rotr32 19 x)) (x >>> 10)

/-- SHA-256 big sigma 0. -/
def bsig0 (x : Nat) : Nat := Nat.xor (Nat.xor (rotr32 2 x) (rotr32 13 x)) (rotr32 22 x)

/-- SHA-256 big sigma 1. -/
def bsig1 (x : Nat) : Nat := Nat.xor (Nat.xor (rotr32 6 x) (rotr32 11 x)) (rotr32 25 x)

/-- SHA-256 choose function. -/
def sha2ch (x y z : Nat) : Nat := Nat.xor (x &&& y) ((not32 x) &&& z)

/-- SHA-256 majority function. -/
def sha2maj (x y z : Nat) : Nat := Nat.xor (Nat.xor (x &&& y) (x &&& z)) (y &&& z)

/-- The 64 SHA-256 round constants. -/
def K64 : List Nat :=
  [1116352408, 1899447441, 3049323471, 3921009573,
   961987163, 1508970993, 2453635748, 2870763221,
   3624381080, 310598401, 607225278, 1426881987,
   1925078388, 2162078206, 2614888103, 3248222580,
   3835390401, 4022224774, 264347078, 604807628,
   770255983, 1249150122, 1555081692, 1996064986,
   2554220882, 2821834349, 2952996808, 3210313671,
   3336571891, 3584528711, 113926993, 338241895,
   666307205, 773529912, 1294757372, 1396182291,
   1695183700, 1986661051, 2177026350, 2456956037,
   2730485921, 2820302411, 3259730800, 3345764771,
   3516065817, 3600352804, 4094571909, 275423344,
   430227734, 506948616, 659060556, 883997877,
   958139571, 1322822218, 1537002063, 1747873779,
   1955562222, 2024104815, 2227730452, 2361852424,
   2428436474, 2756734187, 3204031479, 3329325298]

/-- The eight 32-bit working variables of the SHA-256 compression function. -/
structure Sha256State where
  a : Nat
  b : Nat
  c : Nat
  d : Nat
  e : Nat
  f : Nat
  g : Nat
  h : Nat

/-- The SHA-256 initial hash value. -/
def sha256Init : Sha256State :=
  ⟨1779033703, 3144134277, 1013904242, 2773480762,
   1359893119, 2600822924, 528734635, 1541459225⟩

/-- One round of the SHA-256 compression function. -/
def sha256Round (w k : Nat) (s : Sha256State) : Sha256State :=
  let t1 := add32 (add32 (add32 s.h (bsig1 s.e)) (add32 (sha2ch s.e s.f s.g) k)) w
  let t2 := add32 (bsig0 s.a) (sha2maj s.a s.b s.c)
  ⟨add32 t1 t2, s.a, s.b, s.c, add32 s.d t1, s.e, s.f, s.g⟩

/-- Big-endian interpretation of a list of bytes as one number. -/
def beWord (bs : List Nat) : Nat := bs.foldl (fun acc b => acc * 256 + b) 0

/-- Append one extended word to the SHA-256 message schedule. -/
def scheduleWord (w : List Nat) : Nat :=
  let t := w.length
  add32 (add32 (ssig1 (w.getD (t - 2) 0)) (w.getD (t - 7) 0))
        (add32 (ssig0 (w.getD (t - 15) 0)) (w.getD (t - 16) 0))

/-- Extend the message schedule by n words. -/
def extendSchedule : Nat → List Nat → List Nat
  | 0, w => w
  | n + 1, w => extendSchedule n (w ++ [scheduleWord w])

/-- The full 64-word message schedule of one 64-byte chunk. -/
def sha256Schedule (chunk : List Nat) : List Nat :=
  extendSchedule 48 ((List.range 16).map (fun i => beWord ((chunk.drop (4 * i)).take 4)))

/-- Pointwise 32-bit addition of two compression states. -/
def sha256Add (x y : Sha256State) : Sha256State :=
  ⟨add32 x.a y.a, add32 x.b y.b, add32 x.c y.c, add32 x.d y.d,
   add32 x.e y.e, add32 x.f y.f, add32 x.g y.g, add32 x.h y.h⟩

/-- Process one 64-byte chunk. -/
def sha256Chunk (hs : Sha256State) (chunk : List Nat) : Sha256State :=
  let ws := sha256Schedule chunk
  sha256Add hs ((ws.zip K64).foldl (fun s wk => sha256Round wk.1 wk.2 s) hs)

/-- Big-endian encoding of a number as 8 bytes (the message-length field). -/
def toBE8 (n : Nat) : List Nat :=
  (List.range 8).map (fun i => n / 2 ^ (8 * (7 - i)) % 256)

/-- SHA-256 message padding: append 0x80, zero bytes to 56 mod 64, then the
bit length as 8 big-endian bytes. -/
def sha256Pad (msg : List Nat) : List Nat :=
  let l := msg.length
  let zeros := (64 + 56 - (l + 1) % 64) % 64
  msg ++ [0x80] ++ List.replicate zeros 0 ++ toBE8 (8 * l)

/-- Split a byte list into 64-byte chunks (structural recursion with a fuel
bound of one chunk per fuel unit; the fuel given in chunks64 always
suffices). -/
def chunks64Aux : Nat → List Nat → List (List Nat)
  | 0, _ => []
  | _, [] => []
  | n + 1, x :: rest => ((x :: rest).take 64) :: chunks64Aux n (rest.drop 63)

/-- Split a byte list into 64-byte chunks. -/
def chunks64 (l : List Nat) : List (List Nat) := chunks64Aux (l.length + 1) l

/-- The sixteen lowercase hexadecimal digits. -/
def hexDigits : List Char := "0123456789abcdef".data

/-- The hexadecimal digit character for a value below 16. -/
def hexDigitChar (n : Nat) : Char := hexDigits.getD n '0'

/-- Lowercase hexadecimal rendering of one 32-bit word as 8 characters. -/
def hexOfWord (w : Nat) : List Char :=
  (List.range 8).map (fun i => hexDigitChar (w / 16 ^ (7 - i) % 16))

/-- SHA-256 digest of a byte list, rendered as lowercase hexadecimal
(model of hashlib.sha256(bytes).hexdigest()). -/
def sha256_hexdigest (msg : List Nat) : String :=
  let st := (chunks64 (sha256Pad msg)).foldl sha256Chunk sha256Init
  String.mk (hexOfWord st.a ++ hexOfWord st.b ++ hexOfWord st.c ++ hexOfWord st.d ++
             hexOfWord st.e ++ hexOfWord st.f ++ hexOfWord st.g ++ hexOfWord st.h)

/-- UTF-8 encoding of one character (model of Python str.encode()). -/
def utf8EncodeChar (c : Char) : List Nat :=
  let n := c.toNat
  if n < 128 then [n]
  else if n < 2048 then [192 + n / 64, 128 + n % 64]
  else if n < 65536 then [224 + n / 4096, 128 + n / 64 % 64, 128 + n % 64]
  else [240 + n / 262144, 128 + n / 4096 % 64, 128 + n / 64 % 64, 128 + n % 64]

/-- UTF-8 encoding of a string as a byte list. -/
def utf8Encode (s : String) : List Nat := s.data.flatMap utf8EncodeChar

/-- CachedAutomaticVoiceoversModel.generate_hash_from_text:
hashlib.sha256(plaintext.encode()).hexdigest(). -/
def generate_hash_from_text (plaintext : String) : String :=
  sha256_hexdigest (utf8Encode plaintext)

set_option maxRecDepth 100000 in
set_option maxHeartbeats 2000000 in
example : generate_hash_from_text "" =
    "e3b0c44298fc1c149afbf4c8996fb92427ae41e4649b934ca495991b7852b855" := by decide

/-! ## html.unescape (model)

parse_html relies on Python html.unescape twice: once inside html.parser
(attribute values and character references in text data) and once inside
convert_custom_oppia_tags_to_generic_tags.  We model the reference
replacement algorithm of html._replace_charref as a character-level state
machine: after an ampersand, a candidate reference is accumulated (named
references: up to 32 characters not in the excluded set; numeric
references: # followed by decimal digits or x plus hexadecimal digits),
and finalized either by a semicolon or by the first character that cannot
extend it.  The named-entity table is restricted to the references that
occur in this repository (amp, lt, gt, quot with optional semicolon, and
apos with semicolon); the Windows-1252 remapping of numeric references in
the 0x80-0x9f range is not modelled. -/

/-- The apostrophe character. -/
def squote : Char := Char.ofNat 39

/-- Characters allowed inside a named character reference
(html._charref excludes tab, newline, form feed, space, and the
characters <, &, #, ;). -/
def isEntNameChar (c : Char) : Bool :=
  !(c = '\t' || c = '\n' || c = '\x0c' || c = ' ' || c = '<' || c = '&' || c = '#' || c = ';')

/-- ASCII alphabetic test. -/
def isAsciiAlpha (c : Char) : Bool :=
  ('a' ≤ c && c ≤ 'z') || ('A' ≤ c && c ≤ 'Z')

/-- ASCII decimal digit test. -/
def isAsciiDigit (c : Char) : Bool := '0' ≤ c && c ≤ '9'

/-- ASCII hexadecimal digit test. -/
def isAsciiHexDigit (c : Char) : Bool :=
  isAsciiDigit c || ('a' ≤ c && c ≤ 'f') || ('A' ≤ c && c ≤ 'F')

/-- Numeric value of a hexadecimal digit. -/
def hexVal (c : Char) : Nat :=
  if isAsciiDigit c then c.toNat - 48
  else if 'a' ≤ c && c ≤ 'f' then c.toNat - 87
  else c.toNat - 55

/-- The named character references modelled (with and without trailing
semicolon, mirroring the keys of Python html5 used by unescape). -/
def namedEntityTable : List (String × Char) :=
  [("amp;", '&'), ("amp", '&'), ("lt;", '<'), ("lt", '<'),
   ("gt;", '>'), ("gt", '>'), ("quot;", '"'), ("quot", '"'), ("apos;", squote)]

/-- Table lookup for a candidate entity key. -/
def entLookup (key : List Char) : Option Char :=
  (namedEntityTable.find? (fun e => e.1 = String.mk key)).map (fun e => e.2)

/-- Longest-prefix lookup used by unescape for candidates without a
semicolon: prefixes are tried from length n down to 2. -/
def entPrefixLookup : Nat → List Char → Option (List Char)
  | 0, _ => none
  | 1, _ => none
  | n + 1, key =>
    match entLookup (key.take (n + 1)) with
    | some r => some (r :: key.drop (n + 1))
    | none => entPrefixLookup n key

/-- Decide whether character c may extend the accumulated candidate
reference buf. -/
def canExtendEnt (buf : List Char) (c : Char) : Bool :=
  match buf with
  | [] => isEntNameChar c || c = '#'
  | ['#'] => isAsciiDigit c || c = 'x' || c = 'X'
  | '#' :: x :: _ => if x = 'x' || x = 'X' then isAsciiHexDigit c else isAsciiDigit c
  | _ => isEntNameChar c && buf.length < 32

/-- Code point to character, with the U+FFFD replacement Python uses for
surrogates and out-of-range numeric references. -/
def charFromCodepoint (n : Nat) : Char :=
  if (55296 ≤ n && n ≤ 57343) || n > 1114111 then Char.ofNat 65533 else Char.ofNat n

/-- Numeric value of a digit run (base given). -/
def digitsVal (base : Nat) : List Char → Nat
  | [] => 0
  | l => l.foldl (fun acc c => acc * base + hexVal c) 0

/-- Replacement text for a finalized candidate reference (model of
html._replace_charref); invalid candidates are emitted literally. -/
def finalizeEnt (buf : List Char) (semi : Bool) : List Char :=
  let literal := '&' :: buf ++ (if semi then [';'] else [])
  match buf with
  | [] => literal
  | '#' :: rest =>
    match rest with
    | [] => literal
    | x :: ds =>
      if x = 'x' || x = 'X' then
        if ds = [] then literal else [charFromCodepoint (digitsVal 16 ds)]
      else [charFromCodepoint (digitsVal 10 (x :: ds))]
  | _ =>
    let key := buf ++ (if semi then [';'] else [])
    match entLookup key with
    | some r => [r]
    | none =>
      match entPrefixLookup (key.length - 1) key with
      | some repl => repl
      | none => literal

/-- The unescape state machine: the first argument is the candidate
reference being accumulated after an ampersand, if any. -/
def unescAux : Option (List Char) → List Char → List Char
  | none, [] => []
  | none, c :: rest =>
    if c = '&' then unescAux (some []) rest else c :: unescAux none rest
  | some buf, [] => finalizeEnt buf false
  | some buf, c :: rest =>
    if c = ';' then finalizeEnt buf true ++ unescAux none rest
    else if canExtendEnt buf c then unescAux (some (buf ++ [c])) rest
    else
      finalizeEnt buf false ++
        (if c = '&' then unescAux (some []) rest else c :: unescAux none rest)

/-- Model of Python html.unescape on character lists. -/
def pyUnescape (l : List Char) : List Char := unescAux none l

/-! ## html.parser tokenization (model)

parse_html builds its tree with BeautifulSoup(html_content, 'html.parser'),
i.e. Python HTMLParser with convert_charrefs=True feeding the BeautifulSoup
tree builder.  The tokenizer below models HTMLParser event generation:
text data between tags is unescaped per run; a < followed by a letter opens
a start tag whose end is the next > outside quoted attribute values; </
followed by a letter is an end tag; <!-- opens a comment ended by -->;
other <! and <? constructs and bogus end tags are consumed up to the next
> and produce no text; a < that cannot be completed (no closing >, or
followed by an unexpected character) is emitted as literal text data and
scanning resumes after it.  Tag and attribute names are ASCII-lowercased,
attribute values are unescaped, and valueless attributes get value ""
(as the BeautifulSoup builder replaces None attribute values by "").
CDATA content modes for script/style elements are not modelled (no such
tags occur in lesson content handled by this subsystem). -/

/-- A tokenizer event. -/
inductive HTok where
  | tstart : String → List (String × String) → Bool → HTok
  | tend : String → HTok
  | tdata : String → HTok
  | tcomment : HTok
deriving DecidableEq

/-- Characters that may appear in a start-tag name after the initial
letter (html.parser tagfind_tolerant). -/
def isTagNameChar (c : Char) : Bool :=
  !(c = '\t' || c = '\n' || c = '\r' || c = '\x0c' || c = ' ' || c = '/' || c = '>')

/-- Characters that may appear in an attribute name. -/
def isAttrNameChar (c : Char) : Bool :=
  !(isPySpace c || c = '/' || c = '=' || c = '>')

/-- Characters allowed in an end-tag name after the initial letter. -/
def isEndTagNameChar (c : Char) : Bool :=
  isAsciiAlpha c || isAsciiDigit c || c = '-' || c = '.' || c = ':' || c = '_'

/-- Index of the closing > of a start tag, skipping quoted attribute
values; the first argument is the currently open quote character. -/
def findTagEndAux (q : Option Char) : List Char → Option Nat
  | [] => none
  | c :: rest =>
    match q with
    | some qc =>
      if c = qc then (findTagEndAux none rest).map (· + 1)
      else (findTagEndAux (some qc) rest).map (· + 1)
    | none =>
      if c = '>' then some 0
      else if c = '"' || c = squote then (findTagEndAux (some c) rest).map (· + 1)
      else (findTagEndAux none rest).map (· + 1)

/-- Index of the first occurrence of a character. -/
def findCharIdx (t : Char) : List Char → Option Nat
  | [] => none
  | c :: rest => if c = t then some 0 else (findCharIdx t rest).map (· + 1)

/-- Number of characters up to and including a closing comment
delimiter. -/
def findCommentEnd : List Char → Option Nat
  | '-' :: '-' :: '>' :: _ => some 3
  | _ :: rest => (findCommentEnd rest).map (· + 1)
  | [] => none

/-- Attribute parsing inside a start tag (model of attrfind_tolerant):
stray slashes and whitespace between attributes are skipped; a name runs
until whitespace, /, = or the end; an optional = (possibly repeated, with
surrounding whitespace) introduces a single-quoted, double-quoted or
unquoted value, which is unescaped; a valueless attribute gets "".
The fuel argument (always at least the input length) makes the recursion
structural. -/
def parseAttrs : Nat → List Char → List (String × String)
  | 0, _ => []
  | fuel + 1, l =>
    let l1 := l.dropWhile (fun c => isPySpace c || c = '/')
    match l1 with
    | [] => []
    | c :: cs =>
      if c = '=' then parseAttrs fuel cs
      else
        let nm := (c :: cs).takeWhile isAttrNameChar
        let after := (c :: cs).drop nm.length
        let after1 := after.dropWhile isPySpace
        match after1 with
        | '=' :: vrest =>
          let v0 := (vrest.dropWhile (fun c => c = '=')).dropWhile isPySpace
          match v0 with
          | '"' :: vr =>
            let v := vr.takeWhile (fun c => c ≠ '"')
            (String.mk (asciiLowerList nm), String.mk (pyUnescape v)) ::
              parseAttrs fuel (vr.drop (v.length + 1))
          | q :: vr =>
            if q = squote then
              let v := vr.takeWhile (fun c => c ≠ squote)
              (String.mk (asciiLowerList nm), String.mk (pyUnescape v)) ::
                parseAttrs fuel (vr.drop (v.length + 1))
            else
              let v := v0.takeWhile (fun c => !isPySpace c)
              (String.mk (asciiLowerList nm), String.mk (pyUnescape v)) ::
                parseAttrs fuel (v0.drop v.length)
          | [] => [(String.mk (asciiLowerList nm), "")]
        | _ => (String.mk (asciiLowerList nm), "") :: parseAttrs fuel after1

/-- Parse the inside of a start tag (between < and >) into a start-tag
event; a trailing slash marks the tag as self-closing. -/
def parseStartTag (inner : List Char) : HTok :=
  let selfClosing := inner.getLast? = some '/'
  let inner2 := if selfClosing then inner.dropLast else inner
  let nm := inner2.takeWhile isTagNameChar
  HTok.tstart (String.mk (asciiLowerList nm))
    (parseAttrs (inner2.length + 1) (inner2.drop nm.length)) selfClosing

/-- The name of an end tag (initial letter plus name characters). -/
def endTagName : List Char → List Char
  | [] => []
  | c :: rest => c :: rest.takeWhile isEndTagNameChar

/-- Handle the text following a <: returns the events produced by the
construct and the remaining input.  When the construct cannot be
completed, the < itself becomes literal data and scanning resumes right
after it. -/
def handleLt (rest : List Char) : List HTok × List Char :=
  match rest with
  | [] => ([HTok.tdata "<"], [])
  | c :: cs =>
    if isAsciiAlpha c then
      match findTagEndAux none rest with
      | some i => ([parseStartTag (rest.take i)], rest.drop (i + 1))
      | none => ([HTok.tdata "<"], rest)
    else if c = '/' then
      match cs with
      | d :: _ =>
        if isAsciiAlpha d then
          match findCharIdx '>' rest with
          | some i =>
            ([HTok.tend (String.mk (asciiLowerList (endTagName cs)))], rest.drop (i + 1))
          | none => ([HTok.tdata "<"], rest)
        else
          match findCharIdx '>' rest with
          | some i => ([HTok.tcomment], rest.drop (i + 1))
          | none => ([HTok.tdata "<"], rest)
      | [] => ([HTok.tdata "<"], rest)
    else if c = '!' then
      match cs with
      | '-' :: '-' :: cs2 =>
        match findCommentEnd cs2 with
        | some n => ([HTok.tcomment], cs2.drop n)
        | none => ([HTok.tdata "<"], rest)
      | _ =>
        match findCharIdx '>' rest with
        | some i => ([HTok.tcomment], rest.drop (i + 1))
        | none => ([HTok.tdata "<"], rest)
    else if c = '?' then
      match findCharIdx '>' rest with
      | some i => ([HTok.tcomment], rest.drop (i + 1))
      | none => ([HTok.tdata "<"], rest)
    else ([HTok.tdata "<"], rest)

/-- Emit a pending text-data run (unescaped) if it is nonempty. -/
def flushData (acc : List Char) (k : List HTok) : List HTok :=
  if acc = [] then k else HTok.tdata (String.mk (pyUnescape acc.reverse)) :: k

/-- The tokenizer main loop: text characters are accumulated (reversed) in
acc; at a < the run is flushed and the construct handled.  The fuel
argument (always at least the input length plus one) makes the recursion
structural; fuel never runs out for the initial fuel supplied by
tokenizePy. -/
def tokenizeAux : Nat → List Char → List Char → List HTok
  | 0, acc, _ => flushData acc []
  | _ + 1, acc, [] => flushData acc []
  | fuel + 1, acc, c :: rest =>
    if c = '<' then
      let r := handleLt rest
      flushData acc (r.1 ++ tokenizeAux fuel [] r.2)
    else tokenizeAux fuel (c :: acc) rest

/-- Tokenize an input string. -/
def tokenizePy (s : String) : List HTok :=
  tokenizeAux (s.data.length + 1) [] s.data

/-- Merge adjacent text-data events (the BeautifulSoup builder joins
consecutive handle_data payloads into a single string before creating a
node; comment-like events flush the pending data, so data runs separated
by them stay separate nodes). -/
def coalesceData : List HTok → List HTok
  | [] => []
  | HTok.tdata a :: rest =>
    match coalesceData rest with
    | HTok.tdata b :: rest2 => HTok.tdata (a ++ b) :: rest2
    | r => HTok.tdata a :: r
  | t :: rest => t :: coalesceData rest

/-! ## BeautifulSoup tree building (model)

The document tree is represented with a first-child / next-sibling
encoding so that every traversal is plain structural recursion: htext and
helem each carry the chain of following siblings. -/

/-- An HTML document tree (hnil ends a sibling chain). -/
inductive HTree where
  | hnil : HTree
  | htext : String → HTree → HTree
  | helem : String → List (String × String) → HTree → HTree → HTree
deriving DecidableEq

/-- A completed node waiting to be attached to its parent. -/
inductive PN where
  | ptext : String → PN
  | pelem : String → List (String × String) → HTree → PN
deriving DecidableEq

/-- An open element on the builder stack: name, attributes, and the
pending children of its parent collected so far. -/
def Frame : Type := String × List (String × String) × List PN

/-- Turn a reversed pending-children list into a sibling chain. -/
def revToTree : List PN → HTree → HTree
  | [], t => t
  | PN.ptext s :: rest, t => revToTree rest (HTree.htext s t)
  | PN.pelem n a ch :: rest, t => revToTree rest (HTree.helem n a ch t)

/-- Close the innermost open element: its collected children become its
subtree and the element joins its parent's pending children. -/
def closeFrame (pend : List PN) (fr : Frame) : List PN :=
  PN.pelem fr.1 fr.2.1 (revToTree pend HTree.hnil) :: fr.2.2

/-- Pop open elements until one with the given name is closed (the
BeautifulSoup _popToTag search closes intervening unclosed elements
implicitly). -/
def closeToName (n : String) (pend : List PN) : List Frame → List PN × List Frame
  | [] => (pend, [])
  | fr :: stRest =>
    if fr.1 = n then (closeFrame pend fr, stRest)
    else closeToName n (closeFrame pend fr) stRest

/-- Close every open element at end of input. -/
def closeAll : List PN → List Frame → HTree
  | pend, [] => revToTree pend HTree.hnil
  | pend, fr :: rest => closeAll (closeFrame pend fr) rest

/-- The HTML void elements, which the BeautifulSoup HTML builder treats
as empty elements even without a trailing slash. -/
def voidTags : List String :=
  ["area", "base", "br", "col", "embed", "hr", "img", "input", "keygen",
   "link", "menuitem", "meta", "param", "source", "track", "wbr",
   "basefont", "bgsound", "command", "frame", "image", "isindex",
   "nextid", "spacer"]

/-- Build the document tree from the token stream: data becomes text
nodes, start tags open elements (self-closing and void tags close
immediately), end tags close to the nearest matching open element and are
ignored when no such element is open. -/
def buildAux : List HTok → List PN → List Frame → HTree
  | [], pend, stack => closeAll pend stack
  | HTok.tdata s :: rest, pend, stack => buildAux rest (PN.ptext s :: pend) stack
  | HTok.tcomment :: rest, pend, stack => buildAux rest pend stack
  | HTok.tstart n a sc :: rest, pend, stack =>
    if sc || voidTags.contains n then buildAux rest (PN.pelem n a HTree.hnil :: pend) stack
    else buildAux rest [] ((n, a, pend) :: stack)
  | HTok.tend n :: rest, pend, stack =>
    if (stack.map (fun fr => fr.1)).contains n then
      let r := closeToName n pend stack
      buildAux rest r.1 r.2
    else buildAux rest pend stack

/-- The document tree of a markup string (tokenize, merge adjacent data,
build). -/
def htmlTreeOf (s : String) : HTree :=
  buildAux (coalesceData (tokenizePy s)) [] []

/-! ## Custom Oppia tag conversion (model of
convert_custom_oppia_tags_to_generic_tags and the find_all loop in
parse_html) -/

/-- The custom rich-text tags handled by parse_html, in source order. -/
def ALLOWED_CUSTOM_OPPIA_RTE_TAGS : List String :=
  ["oppia-noninteractive-collapsible",
   "oppia-noninteractive-image",
   "oppia-noninteractive-link",
   "oppia-noninteractive-math",
   "oppia-noninteractive-video",
   "oppia-noninteractive-skillreview",
   "oppia-noninteractive-tabs"]

/-- Last binding of an attribute (the BeautifulSoup builder keeps the
last occurrence of a duplicated attribute). -/
def attrGetLast (a : List (String × String)) (k : String) : Option String :=
  ((a.reverse.find? (fun p => p.1 = k))).map (fun p => p.2)

/-- JSON whitespace. -/
def isJsonWs (c : Char) : Bool := c = ' ' || c = '\t' || c = '\n' || c = '\r'

/-- Parse the body of a JSON string literal after the opening quote;
returns the decoded content and the input after the closing quote.
Unicode escapes are decoded to the corresponding code point (surrogate
halves, which Lean characters cannot carry, are rejected; no input of
this subsystem contains them). -/
def jsonStringBody : List Char → Option (List Char × List Char)
  | [] => none
  | '"' :: rest => some ([], rest)
  | '\\' :: e :: rest =>
    if e = '"' then (jsonStringBody rest).map (fun p => ('"' :: p.1, p.2))
    else if e = '\\' then (jsonStringBody rest).map (fun p => ('\\' :: p.1, p.2))
    else if e = '/' then (jsonStringBody rest).map (fun p => ('/' :: p.1, p.2))
    else if e = 'b' then (jsonStringBody rest).map (fun p => (Char.ofNat 8 :: p.1, p.2))
    else if e = 'f' then (jsonStringBody rest).map (fun p => (Char.ofNat 12 :: p.1, p.2))
    else if e = 'n' then (jsonStringBody rest).map (fun p => ('\n' :: p.1, p.2))
    else if e = 'r' then (jsonStringBody rest).map (fun p => ('\r' :: p.1, p.2))
    else if e = 't' then (jsonStringBody rest).map (fun p => ('\t' :: p.1, p.2))
    else if e = 'u' then
      match rest with
      | h1 :: h2 :: h3 :: h4 :: rest2 =>
        if isAsciiHexDigit h1 && isAsciiHexDigit h2 && isAsciiHexDigit h3 &&
            isAsciiHexDigit h4 then
          let n := ((hexVal h1 * 16 + hexVal h2) * 16 + hexVal h3) * 16 + hexVal h4
          if 55296 ≤ n && n ≤ 57343 then none
          else (jsonStringBody rest2).map (fun p => (Char.ofNat n :: p.1, p.2))
        else none
      | _ => none
    else none
  | c :: rest =>
    if c.toNat < 32 then none
    else (jsonStringBody rest).map (fun p => (c :: p.1, p.2))

/-- Model of json.loads restricted to a single JSON string literal (the
payload format of text-with-value attributes). -/
def json_loads_string (s : String) : Except String String :=
  match s.data.dropWhile isJsonWs with
  | '"' :: rest =>
    match jsonStringBody rest with
    | some (body, after) =>
      if after.dropWhile isJsonWs = [] then Except.ok (String.mk body)
      else Except.error "json.decoder.JSONDecodeError: Extra data"
    | none => Except.error "json.decoder.JSONDecodeError: Unterminated string"
  | _ => Except.error "json.decoder.JSONDecodeError: Expecting value"

/-- Parse the members of a flat JSON object whose values are string
literals (the payload format of math_content-with-value attributes).
The fuel argument (always at least the input length) makes the recursion
structural. -/
def jsonObjMembers : Nat → List Char → List (String × String) →
    Except String (List (String × String))
  | 0, _, _ => Except.error "json.decoder.JSONDecodeError: Expecting value"
  | fuel + 1, l, acc =>
    match l.dropWhile isJsonWs with
    | '"' :: rest =>
      match jsonStringBody rest with
      | some (key, afterKey) =>
        match afterKey.dropWhile isJsonWs with
        | ':' :: afterColon =>
          match afterColon.dropWhile isJsonWs with
          | '"' :: vrest =>
            match jsonStringBody vrest with
            | some (v, afterV) =>
              let acc2 := acc ++ [(String.mk key, String.mk v)]
              match afterV.dropWhile isJsonWs with
              | ',' :: rest2 => jsonObjMembers fuel rest2 acc2
              | c :: rest2 =>
                if c = Char.ofNat 125 then
                  if rest2.dropWhile isJsonWs = [] then Except.ok acc2
                  else Except.error "json.decoder.JSONDecodeError: Extra data"
                else Except.error "json.decoder.JSONDecodeError: Expecting delimiter"
              | [] => Except.error "json.decoder.JSONDecodeError: Expecting delimiter"
            | none => Except.error "json.decoder.JSONDecodeError: Unterminated string"
          | _ => Except.error "json.decoder.JSONDecodeError: Expecting value"
        | _ => Except.error "json.decoder.JSONDecodeError: Expecting colon"
      | none => Except.error "json.decoder.JSONDecodeError: Unterminated string"
    | _ => Except.error "json.decoder.JSONDecodeError: Expecting property name"

/-- Model of json.loads restricted to a flat JSON object with string
values. -/
def json_loads_object (s : String) : Except String (List (String × String)) :=
  match s.data.dropWhile isJsonWs with
  | c :: rest =>
    if c = Char.ofNat 123 then
      match rest.dropWhile isJsonWs with
      | d :: rest2 =>
        if d = Char.ofNat 125 then
          if rest2.dropWhile isJsonWs = [] then Except.ok []
          else Except.error "json.decoder.JSONDecodeError: Extra data"
        else jsonObjMembers (rest.length + 1) rest []
      | [] => Except.error "json.decoder.JSONDecodeError: Expecting property name"
    else Except.error "json.decoder.JSONDecodeError: Expecting value"
  | [] => Except.error "json.decoder.JSONDecodeError: Expecting value"

/-- Model of pylatexenc latex2text.LatexNodes2Text().latex_to_text.
The library is an external dependency; on the plain arithmetic LaTeX
payloads exercised by this repository (for example the repository test
expects x^2 + y^2 = z^2 to pass through unchanged) it acts as the
identity, which is how it is modelled here.  No claim depends on its
value on other inputs. -/
def latex_to_text (s : String) : String := s

/-- Decode the voiced text carried by a link or skillreview tag: unescape
the text-with-value attribute and JSON-decode it.  A missing attribute is
the unescape-of-None TypeError of the source. -/
def decodeTextWithValue (a : List (String × String)) : Except String String :=
  match attrGetLast a "text-with-value" with
  | none => Except.error "TypeError: html.unescape expected a string, got None"
  | some v => json_loads_string (String.mk (pyUnescape v.data))

/-- Decode the spoken formula of a math tag: unescape the
math_content-with-value attribute, JSON-decode it, read raw_latex, and
render it as text. -/
def decodeMathContent (a : List (String × String)) : Except String String :=
  match attrGetLast a "math_content-with-value" with
  | none => Except.error "TypeError: html.unescape expected a string, got None"
  | some v =>
    match json_loads_object (String.mk (pyUnescape v.data)) with
    | Except.error e => Except.error e
    | Except.ok obj =>
      match attrGetLast obj "raw_latex" with
      | none => Except.error "KeyError: raw_latex"
      | some latex => Except.ok (latex_to_text latex)

/-- Model of convert_custom_oppia_tags_to_generic_tags on one element
(name, attributes, children): link and skillreview tags have their
children replaced by the decoded text-with-value, math tags by the
rendered raw_latex, and every handled tag is renamed to p. -/
def convert_custom_oppia_tags_to_generic_tags (n : String)
    (a : List (String × String)) (ch : HTree) :
    Except String (String × List (String × String) × HTree) :=
  if n = "oppia-noninteractive-link" || n = "oppia-noninteractive-skillreview" then
    match decodeTextWithValue a with
    | Except.error e => Except.error e
    | Except.ok v => Except.ok ("p", a, HTree.htext v HTree.hnil)
  else if n = "oppia-noninteractive-math" then
    match decodeMathContent a with
    | Except.error e => Except.error e
    | Except.ok v => Except.ok ("p", a, HTree.htext v HTree.hnil)
  else Except.ok ("p", a, ch)

/-- Validate every same-kind descendant of a replaced subtree: find_all
collects all matching elements before any mutation, so elements detached
when an ancestor of the same kind is rewritten are still converted, and
their attribute errors still surface. -/
def validateKind (k : String) : HTree → Except String Unit
  | HTree.hnil => Except.ok ()
  | HTree.htext _ sib => validateKind k sib
  | HTree.helem n a ch sib =>
    if n = k then
      match convert_custom_oppia_tags_to_generic_tags n a ch with
      | Except.error e => Except.error e
      | Except.ok _ =>
        match validateKind k ch with
        | Except.error e => Except.error e
        | Except.ok () => validateKind k sib
    else
      match validateKind k ch with
      | Except.error e => Except.error e
      | Except.ok () => validateKind k sib

/-- The custom tag kinds whose conversion replaces the element content by
decoded attribute text (the others are only renamed). -/
def replacingKind (k : String) : Bool :=
  k = "oppia-noninteractive-link" || k = "oppia-noninteractive-skillreview" ||
    k = "oppia-noninteractive-math"

/-- One pass of the parse_html conversion loop for tag kind k: every
element named k is converted in document order.  For replacing kinds the
subtree the element carried is checked for detached same-kind elements
(find_all collected them before any mutation); for rename-only kinds the
children stay attached, so same-kind descendants are reached by
recursion. -/
def convPass (k : String) : HTree → Except String HTree
  | HTree.hnil => Except.ok HTree.hnil
  | HTree.htext s sib => (convPass k sib).map (fun r => HTree.htext s r)
  | HTree.helem n a ch sib =>
    if n = k then
      if replacingKind k then
        match convert_custom_oppia_tags_to_generic_tags n a ch with
        | Except.error e => Except.error e
        | Except.ok r =>
          match validateKind k ch with
          | Except.error e => Except.error e
          | Except.ok () => (convPass k sib).map (fun sib2 => HTree.helem r.1 r.2.1 r.2.2 sib2)
      else
        match convPass k ch with
        | Except.error e => Except.error e
        | Except.ok ch2 => (convPass k sib).map (fun sib2 => HTree.helem "p" a ch2 sib2)
    else
      match convPass k ch with
      | Except.error e => Except.error e
      | Except.ok ch2 => (convPass k sib).map (fun sib2 => HTree.helem n a ch2 sib2)

/-- The full conversion loop over the allowed custom tag kinds, in source
order. -/
def convertAllTags (t : HTree) : Except String HTree :=
  ALLOWED_CUSTOM_OPPIA_RTE_TAGS.foldlM (fun tr k => convPass k tr) t

/-- All text strings of the tree in document order (the descendant
strings seen by get_text). -/
def getStrings : HTree → List String
  | HTree.hnil => []
  | HTree.htext s sib => s :: getStrings sib
  | HTree.helem _ _ ch sib => getStrings ch ++ getStrings sib

/-- The content delimiter feconf.OPPIA_CONTENT_TAG_DELIMITER passed to
get_text (feconf is outside the sampled sources; the value is pinned by
the repository tests, whose expected outputs join segments with a
semicolon and a space). -/
def OPPIA_CONTENT_TAG_DELIMITER : String := "; "

/-- Join a list of strings with a separator (the str.join applied by
get_text). -/
def sepJoin (sep : List Char) : List String → List Char
  | [] => []
  | [s] => s.data
  | s :: rest => s.data ++ sep ++ sepJoin sep rest

/-- Model of soup.get_text(separator, strip=True): strip each descendant
string, drop the ones that become empty, join with the separator. -/
def getTextStrip (t : HTree) : String :=
  String.mk (sepJoin OPPIA_CONTENT_TAG_DELIMITER.data
    (((getStrings t).map pstrip).filter (fun s => s ≠ "")))

deriving instance DecidableEq for Except

/-- Model of parse_html: build the soup, convert the custom Oppia tags
(attribute errors propagate as exceptions, modelled as Except.error),
and extract the text with the content delimiter, stripping each
segment. -/
def parse_html (html_content : String) : Except String String :=
  (convertAllTags (htmlTreeOf html_content)).map getTextStrip

/-! ## CachedAutomaticVoiceoversModel (core/storage/voiceover/gae_models.py) -/

/-- The provider identifier feconf.OPPIA_AUTOMATIC_VOICEOVER_PROVIDER
(feconf is outside the sampled sources; no claim depends on the concrete
value, only on its consistent use). -/
def OPPIA_AUTOMATIC_VOICEOVER_PROVIDER : String := "Azure"

/-- One word-boundary timing record: a token and its audio offset in
milliseconds.  Offsets are modelled as rationals (the source stores
Python floats obtained by dividing integer tick counts by 10^4; no claim
depends on floating-point rounding). -/
structure TimingTok where
  token : String
  audio_offset_msecs : Rat
deriving DecidableEq

/-- The fields of a CachedAutomaticVoiceoversModel entity (id is the
datastore key). -/
structure CachedAutomaticVoiceoversModel where
  id : String
  language_accent_code : String
  provider : String
  hash_code : String
  plaintext : String
  voiceover_filename : String
  audio_offset_list : List TimingTok
deriving DecidableEq

/-- CachedAutomaticVoiceoversModel.generate_id:
[language_accent_code]:[hash_code]:[provider]. -/
def generate_id (language_accent_code hash_code provider : String) : String :=
  language_accent_code ++ ":" ++ hash_code ++ ":" ++ provider

/-- CachedAutomaticVoiceoversModel.create_cache_model. -/
def create_cache_model (language_accent_code plaintext voiceover_filename : String)
    (audio_offset_list : List TimingTok) : CachedAutomaticVoiceoversModel :=
  let hash_code := generate_hash_from_text plaintext
  { id := generate_id language_accent_code hash_code OPPIA_AUTOMATIC_VOICEOVER_PROVIDER
    language_accent_code := language_accent_code
    provider := OPPIA_AUTOMATIC_VOICEOVER_PROVIDER
    hash_code := hash_code
    plaintext := plaintext
    voiceover_filename := voiceover_filename
    audio_offset_list := audio_offset_list }

/-- The datastore, modelled as an association list keyed by entity id
(most recent binding first). -/
abbrev Datastore : Type := List (String × CachedAutomaticVoiceoversModel)

/-- get_by_id on the datastore. -/
def dsGet (store : Datastore) (id : String) : Option CachedAutomaticVoiceoversModel :=
  (store.find? (fun p => p.1 = id)).map (fun p => p.2)

/-- put() on the datastore: the entity is stored under its key. -/
def dsPut (store : Datastore) (id : String)
    (m : CachedAutomaticVoiceoversModel) : Datastore :=
  (id, m) :: store

/-- CachedAutomaticVoiceoversModel.get_cached_automatic_voiceover_model. -/
def get_cached_automatic_voiceover_model (store : Datastore)
    (hash_code language_accent_code provider : String) :
    Option CachedAutomaticVoiceoversModel :=
  dsGet store (generate_id language_accent_code hash_code provider)

/-! ## Azure speech synthesis services
(core/platform/azure_speech_synthesis/azure_speech_synthesis_services.py)

The Azure SDK is an external dependency; one remote invocation is
modelled by the word-boundary event stream it delivers to the connected
callback and the SpeechSynthesisResult it returns. -/

/-- A word-boundary callback event: the token text and its audio offset
in the SDK's native unit of 100-nanosecond ticks. -/
structure WordBoundaryEvent where
  text : String
  audio_offset : Nat
deriving DecidableEq

/-- Model of WordBoundaryCollection: each event appends a record with the
token and the offset converted from ticks to milliseconds (divided by
10000). -/
def wordBoundaryCollect (events : List WordBoundaryEvent) : List TimingTok :=
  events.map (fun e => ⟨e.text, (e.audio_offset : Rat) / 10000⟩)

/-- The SDK result reasons distinguished by the source (only Canceled is
compared against). -/
inductive SpeechResultReason where
  | synthesizingAudioCompleted
  | canceled
deriving DecidableEq

/-- The SDK cancellation reasons (only Error is compared against). -/
inductive SpeechCancellationReason where
  | error
  | endOfStream
  | cancelledByUser
deriving DecidableEq

/-- The cancellation details attached to a canceled result. -/
structure SpeechCancellationDetails where
  reason : SpeechCancellationReason
  error_details : String
deriving DecidableEq

/-- The result of speak_ssml_async(...).get(). -/
structure SpeechSynthesisResult where
  audio_data : List Nat
  reason : SpeechResultReason
  cancellation_details : SpeechCancellationDetails
deriving DecidableEq

/-- One remote synthesis invocation, as observed by the caller. -/
structure AzureRemoteBehavior where
  events : List WordBoundaryEvent
  result : SpeechSynthesisResult
deriving DecidableEq

/-- COMMONLY_USED_ARITHMETIC_EXPRESSIONS. -/
def COMMONLY_USED_ARITHMETIC_EXPRESSIONS : List String :=
  ["+", " - ", "*", " / ", "×", "÷"]

/-- Substring containment test (Python in operator on strings). -/
def containsSub (needle : List Char) : List Char → Bool
  | [] => needle.isPrefixOf []
  | c :: rest => needle.isPrefixOf (c :: rest) || containsSub needle rest

/-- is_mathematical_text: substring containment of any arithmetic
operator. -/
def is_mathematical_text (text : String) : Bool :=
  COMMONLY_USED_ARITHMETIC_EXPRESSIONS.any (fun e => containsSub e.data text.data)

/-- MATH_TEMPLATE_SSML_BLOCK with its placeholder substituted. -/
def MATH_TEMPLATE_SSML_BLOCK (content : String) : String :=
  "\n    <say-as interpret-as=\"math\">\n        " ++ content ++ "\n    </say-as>\n"

/-- NON_MATH_TEMPLATE_SSML_BLOCK with its placeholder substituted. -/
def NON_MATH_TEMPLATE_SSML_BLOCK (content : String) : String :=
  "\n    <p>\n        " ++ content ++ "\n    </p>\n"

/-- SSML_TEMPLATE_FOR_SPEECH_SYNTHESIS with its placeholders
substituted. -/
def SSML_TEMPLATE_FOR_SPEECH_SYNTHESIS (lang voice content : String) : String :=
  "\n<speak version=\"1.0\" xmlns=\"http://www.w3.org/2001/10/synthesis\" xml:lang=\"" ++
    lang ++ "\">\n    <voice name=\"" ++ voice ++ "\">\n        " ++ content ++
    "\n    </voice>\n</speak>\n"

/-- Model of get_azure_voicecode_from_language_accent_code: the static
voice table read from autogeneratable_language_accent_list.json (an
external data file, passed in here as an association list); a missing
accent code is the KeyError of the source. -/
def get_azure_voicecode_from_language_accent_code
    (voiceMap : List (String × String)) (language_accent_code : String) :
    Except String String :=
  match (voiceMap.find? (fun p => p.1 = language_accent_code)).map (fun p => p.2) with
  | none => Except.error ("KeyError: " ++ language_accent_code)
  | some voice_code => Except.ok voice_code

/-- convert_plaintext_to_ssml_content: split the text on the content
delimiter, wrap each segment in a math or prose block, then wrap the
whole in the voice envelope. -/
def convert_plaintext_to_ssml_content (voiceMap : List (String × String))
    (plaintext language_accent_code : String) : Except String String :=
  let content_list := plaintext.splitOn OPPIA_CONTENT_TAG_DELIMITER
  let main_ssml_content := String.join (content_list.map (fun content =>
    if is_mathematical_text content then MATH_TEMPLATE_SSML_BLOCK content
    else NON_MATH_TEMPLATE_SSML_BLOCK content))
  match get_azure_voicecode_from_language_accent_code voiceMap language_accent_code with
  | Except.error e => Except.error e
  | Except.ok voice_code =>
    Except.ok (SSML_TEMPLATE_FOR_SPEECH_SYNTHESIS
      language_accent_code voice_code main_ssml_content)

/-- Model of regenerate_speech_from_text.  Parameters beyond the source
signature model its environment: secret is the stored value of the
AZURE_TTS_API_KEY cloud secret, voiceMap the static voice table, remote
the behavior of the one remote invocation.  The returned Except is the
Python control flow (error = exception raised); the Bool records whether
speak_ssml_async was invoked.  Following the source, error_details is
populated only for a canceled result whose cancellation reason is Error;
every other outcome (including cancellations with other reasons) returns
the audio bytes, the collected word-boundary offsets, and None. -/
def regenerate_speech_from_text (secret : Option String)
    (voiceMap : List (String × String)) (remote : AzureRemoteBehavior)
    (plaintext language_accent_code : String) :
    Except String (List Nat × List TimingTok × Option String) × Bool :=
  match secret with
  | none => (Except.error "Azure TTS API key is not available.", false)
  | some _ =>
    match convert_plaintext_to_ssml_content voiceMap plaintext language_accent_code with
    | Except.error e => (Except.error e, false)
    | Except.ok _ =>
      let offsets := wordBoundaryCollect remote.events
      let res := remote.result
      let error_details : Option String :=
        if res.reason = SpeechResultReason.canceled then
          if res.cancellation_details.reason = SpeechCancellationReason.error then
            some res.cancellation_details.error_details
          else none
        else none
      (Except.ok (res.audio_data, offsets, error_details), true)

/-! ## The orchestrator
(voiceover_regeneration_services.synthesize_voiceover_for_html_string) -/

/-- The blob store of GcsFileSystem, keyed by entity id and path (the
file system is constructed per exploration entity, so blob names are
namespaced per entity). -/
abbrev BlobStore : Type := List (String × List Nat)

/-- fs.get: read a blob (raises when absent). -/
def fsGet (blobs : BlobStore) (key : String) : Option (List Nat) :=
  (blobs.find? (fun p => p.1 = key)).map (fun p => p.2)

/-- fs.commit: write a blob. -/
def fsCommit (blobs : BlobStore) (key : String) (data : List Nat) : BlobStore :=
  (key, data) :: blobs

/-- The blob key used by the orchestrator for a filename within an
exploration entity (the audio/ namespace of the source, prefixed by the
entity). -/
def audioBlobKey (exploration_id filename : String) : String :=
  exploration_id ++ "/audio/" ++ filename

/-- The mutable collaborators of one orchestrator call: the voiceover
cache datastore and the blob store. -/
structure OrchestratorState where
  cache : Datastore
  blobs : BlobStore
deriving DecidableEq

/-- The behavior of speech_synthesis_services.regenerate_speech_from_text
on the one call the orchestrator may make: either it raises, or it
returns audio bytes, offsets and an optional error description. -/
inductive ProviderBehavior where
  | raises : String → ProviderBehavior
  | returns : List Nat → List TimingTok → Option String → ProviderBehavior
deriving DecidableEq

/-- Outcome of one orchestrator call: the Python control flow (error =
exception raised), the final state, and whether the synthesis provider
was invoked. -/
structure RegenResult where
  result : Except String (List TimingTok)
  state : OrchestratorState
  providerInvoked : Bool
deriving DecidableEq

/-- Python truthiness of the error_details value checked by
`if error_details:`: None and the empty string are falsy. -/
def errTruthy : Option String → Bool
  | none => false
  | some s => s ≠ ""

/-- Model of the mutagen mp3.MP3(tempbuffer) parse the orchestrator
applies to the audio bytes on every success path, before fs.commit and
before any cache write (source lines 188-198): mutagen scans the buffer
for an MPEG frame sync — an 0xFF byte followed by a byte whose top three
bits are set — and raises HeaderNotFoundError when none is found.  The
detailed frame-header validation of the external library is not
modelled; no claim depends on which exact byte lists parse, only on the
raise happening before any blob or cache side effect. -/
def mp3HeaderFound : List Nat → Bool
  | b1 :: b2 :: rest =>
    (decide (b1 = 255) && decide (b2 &&& 224 = 224)) || mp3HeaderFound (b2 :: rest)
  | _ => false

/-- The exception raised when the audio bytes do not parse as MPEG
audio. -/
def mp3HeaderErr : String := "mutagen.mp3.HeaderNotFoundError: cannot sync to MPEG frame"

/-- The synthesis branch of the orchestrator (reached when there is no
usable cache entry): call the provider, surface failures, parse the
returned bytes as MPEG audio (a failed parse raises before any side
effect), then commit the blob and store or reconcile the cache entry.
When the provider raises with an empty message, the
`if error_details:` guard falls through and the subsequent use of the
never-assigned binary_audio_data raises a NameError; the state is
untouched either way. -/
def runSynthesisPath (provider : ProviderBehavior) (st : OrchestratorState)
    (exploration_id parsed_text language_accent_code voiceover_filename : String)
    (cached_model : Option CachedAutomaticVoiceoversModel) : RegenResult :=
  match provider with
  | ProviderBehavior.raises msg =>
    if msg ≠ "" then ⟨Except.error msg, st, true⟩
    else ⟨Except.error "NameError: name binary_audio_data is not defined", st, true⟩
  | ProviderBehavior.returns binary_audio_data audio_offset_list error_details =>
    if errTruthy error_details then
      ⟨Except.error (error_details.getD ""), st, true⟩
    else if mp3HeaderFound binary_audio_data = false then
      ⟨Except.error mp3HeaderErr, st, true⟩
    else
      let blobs1 := fsCommit st.blobs
        (audioBlobKey exploration_id voiceover_filename) binary_audio_data
      let st1 : OrchestratorState := { st with blobs := blobs1 }
      match cached_model with
      | some cm =>
        if cm.plaintext ≠ parsed_text then
          if parsed_text.length < cm.plaintext.length then
            let cm2 := { cm with
              plaintext := parsed_text
              voiceover_filename := voiceover_filename
              audio_offset_list := audio_offset_list }
            ⟨Except.ok audio_offset_list,
              { st1 with cache := dsPut st1.cache cm.id cm2 }, true⟩
          else ⟨Except.ok audio_offset_list, st1, true⟩
        else ⟨Except.ok audio_offset_list, st1, true⟩
      | none =>
        let new_cached_model := create_cache_model
          language_accent_code parsed_text voiceover_filename audio_offset_list
        ⟨Except.ok audio_offset_list,
          { st1 with cache := dsPut st1.cache new_cached_model.id new_cached_model }, true⟩

/-- Model of synthesize_voiceover_for_html_string: normalize the markup,
look up the cache by (accent, hash, provider); on an exact plaintext
match reuse the stored entry (read its blob, parse it as MPEG audio,
re-commit it under the target filename, return its offsets, no provider
call); otherwise run the synthesis branch.  The MPEG parse of source
lines 188-198 sits on both paths, before the commit.  provider describes
the behavior of the provider on the call the orchestrator would make. -/
def synthesize_voiceover_for_html_string (provider : ProviderBehavior)
    (st : OrchestratorState)
    (exploration_id content_html language_accent_code voiceover_filename : String) :
    RegenResult :=
  match parse_html content_html with
  | Except.error e => ⟨Except.error e, st, false⟩
  | Except.ok parsed_text =>
    let content_hash_code := generate_hash_from_text parsed_text
    match get_cached_automatic_voiceover_model st.cache content_hash_code
        language_accent_code OPPIA_AUTOMATIC_VOICEOVER_PROVIDER with
    | some cm =>
      if cm.plaintext = parsed_text then
        match fsGet st.blobs (audioBlobKey exploration_id cm.voiceover_filename) with
        | none => ⟨Except.error "NotFoundError: file not found", st, false⟩
        | some binary_audio_data =>
          if mp3HeaderFound binary_audio_data = false then
            ⟨Except.error mp3HeaderErr, st, false⟩
          else
            let blobs1 := fsCommit st.blobs
              (audioBlobKey exploration_id voiceover_filename) binary_audio_data
            ⟨Except.ok cm.audio_offset_list, { st with blobs := blobs1 }, false⟩
      else
        runSynthesisPath provider st exploration_id parsed_text
          language_accent_code voiceover_filename (some cm)
    | none =>
      runSynthesisPath provider st exploration_id parsed_text
        language_accent_code voiceover_filename none

/-! ## Claims about hashing and normalization -/

/-- Every hexadecimal digit character produced for a value below 16 is one
of the sixteen lowercase hexadecimal digits. -/
theorem hexDigitChar_mem : ∀ n, n < 16 → hexDigits.contains (hexDigitChar n) = true := by
  decide

/-- The hexadecimal rendering of a word uses only lowercase hexadecimal
digits. -/
theorem hexOfWord_all_hex (w : Nat) :
    (hexOfWord w).all (fun c => hexDigits.contains c) = true := by
  rw [List.all_eq_true]
  intro c hc
  simp only [hexOfWord, List.mem_map, List.mem_range] at hc
  obtain ⟨i, _, rfl⟩ := hc
  exact hexDigitChar_mem _ (Nat.mod_lt _ (by norm_num))

/-- The hexadecimal rendering of a word has 8 characters. -/
theorem hexOfWord_length (w : Nat) : (hexOfWord w).length = 8 := by
  simp [hexOfWord]

/-- C9: generate_hash_from_text is a pure deterministic function equal to
the SHA-256 digest of the UTF-8 encoding of the text rendered as
lowercase hexadecimal; its output always has 64 lowercase-hex characters,
and equal texts always produce equal fingerprints. -/
theorem C9_hash_determinism (t : String) :
    generate_hash_from_text t = sha256_hexdigest (utf8Encode t) ∧
    (generate_hash_from_text t).length = 64 ∧
    (generate_hash_from_text t).data.all (fun c => hexDigits.contains c) = true ∧
    ∀ t2 : String, t = t2 → generate_hash_from_text t = generate_hash_from_text t2 := by
  refine ⟨rfl, ?_, ?_, ?_⟩
  · show (sha256_hexdigest (utf8Encode t)).length = 64
    simp [sha256_hexdigest, String.length, hexOfWord_length]
  · show (sha256_hexdigest (utf8Encode t)).data.all (fun c => hexDigits.contains c) = true
    simp only [sha256_hexdigest, List.all_append, Bool.and_eq_true]
    exact ⟨⟨⟨⟨⟨⟨⟨hexOfWord_all_hex _, hexOfWord_all_hex _⟩, hexOfWord_all_hex _⟩,
      hexOfWord_all_hex _⟩, hexOfWord_all_hex _⟩, hexOfWord_all_hex _⟩,
      hexOfWord_all_hex _⟩, hexOfWord_all_hex _⟩
  · intro t2 h
    rw [h]

/-- Witness for C9 at a concrete text. -/
theorem C9_hash_determinism_witness :
    (generate_hash_from_text "This is a test text").length = 64 ∧
    generate_hash_from_text "This is a test text" =
      generate_hash_from_text "This is a test text" :=
  ⟨(C9_hash_determinism "This is a test text").2.1,
    (C9_hash_determinism "This is a test text").2.2.2 "This is a test text" rfl⟩

set_option maxRecDepth 100000 in
/-- C8: the link-tag markup normalizes to the unescaped JSON-decoded value
of its text attribute, and the two-paragraph markup normalizes to the leaf
texts joined by the fixed delimiter with per-segment whitespace
stripped. -/
theorem C8_normalization_scenarios :
    parse_html ("<p><oppia-noninteractive-link text-with-value=" ++
        "\"&quot;Oppia official website URL&quot;\"/></p>") =
      Except.ok "Oppia official website URL" ∧
    parse_html "<p>Hello world</p>\n\n<p><em>Italics text</em></p>" =
      Except.ok "Hello world; Italics text" :=
  ⟨by decide, by decide⟩

set_option maxRecDepth 100000 in
/-- C4 counterexample: parse_html is not total — a link tag without its
text-with-value attribute makes convert_custom_oppia_tags_to_generic_tags
call html.unescape on None, which raises, so normalization raises rather
than degrading to empty text. -/
theorem C4_counterexample :
    parse_html "<oppia-noninteractive-link></oppia-noninteractive-link>" =
      Except.error "TypeError: html.unescape expected a string, got None" := by
  decide

/-- Whether an Except value is a success. -/
def exceptOk {α β : Type} : Except α β → Bool
  | Except.ok _ => true
  | Except.error _ => false

/-- All custom Oppia tags in the tree carry decodable attributes (the
per-element conversion of the source succeeds on each of them). -/
def tagsOkTree : HTree → Bool
  | HTree.hnil => true
  | HTree.htext _ sib => tagsOkTree sib
  | HTree.helem n a ch sib =>
    exceptOk (convert_custom_oppia_tags_to_generic_tags n a ch) &&
      tagsOkTree ch && tagsOkTree sib

/-- Conversion of an element renamed to p always succeeds and is the
identity on attributes and children. -/
theorem conv_p_ok (a : List (String × String)) (ch : HTree) :
    convert_custom_oppia_tags_to_generic_tags "p" a ch = Except.ok ("p", a, ch) := rfl

/-- Whether the per-element conversion succeeds depends only on the name
and the attributes, not on the children. -/
theorem conv_ok_indep_children (n : String) (a : List (String × String))
    (ch ch2 : HTree) :
    exceptOk (convert_custom_oppia_tags_to_generic_tags n a ch) =
      exceptOk (convert_custom_oppia_tags_to_generic_tags n a ch2) := by
  unfold convert_custom_oppia_tags_to_generic_tags
  split
  · cases decodeTextWithValue a <;> rfl
  · split
    · cases decodeMathContent a <;> rfl
    · rfl

/-- A successful per-element conversion renames the element to p. -/
theorem conv_fst (n : String) (a : List (String × String)) (ch : HTree)
    (r : String × List (String × String) × HTree)
    (h : convert_custom_oppia_tags_to_generic_tags n a ch = Except.ok r) :
    r.1 = "p" := by
  unfold convert_custom_oppia_tags_to_generic_tags at h
  split at h
  · cases hd : decodeTextWithValue a <;> rw [hd] at h
    · cases h
    · cases h; rfl
  · split at h
    · cases hd : decodeMathContent a <;> rw [hd] at h
      · cases h
      · cases h; rfl
    · cases h; rfl

/-- A successful per-element conversion leaves children whose custom tags
are still decodable (they are either a fresh text node or the original
children). -/
theorem conv_children_ok (n : String) (a : List (String × String)) (ch : HTree)
    (r : String × List (String × String) × HTree)
    (h : convert_custom_oppia_tags_to_generic_tags n a ch = Except.ok r)
    (hch : tagsOkTree ch = true) : tagsOkTree r.2.2 = true := by
  unfold convert_custom_oppia_tags_to_generic_tags at h
  split at h
  · cases hd : decodeTextWithValue a <;> rw [hd] at h
    · cases h
    · cases h; rfl
  · split at h
    · cases hd : decodeMathContent a <;> rw [hd] at h
      · cases h
      · cases h; rfl
    · cases h; exact hch

/-- On a tree whose custom tags all decode, the detached-descendant
validation of a conversion pass succeeds. -/
theorem validateKind_ok (k : String) :
    ∀ t : HTree, tagsOkTree t = true → validateKind k t = Except.ok () := by
  intro t
  induction t with
  | hnil => intro _; rfl
  | htext s sib ih =>
    intro h
    exact ih h
  | helem n a ch sib ihch ihsib =>
    intro h
    simp only [tagsOkTree, Bool.and_eq_true] at h
    obtain ⟨⟨hc, hch⟩, hsib⟩ := h
    unfold validateKind
    by_cases hn : n = k
    · subst hn
      cases hconv : convert_custom_oppia_tags_to_generic_tags n a ch with
      | error e => rw [hconv] at hc; cases hc
      | ok r => simp [hconv, ihch hch, ihsib hsib]
    · simp [hn, ihch hch, ihsib hsib]

/-- One conversion pass succeeds on a tree whose custom tags all decode,
and preserves that property. -/
theorem convPass_ok (k : String) :
    ∀ t : HTree, tagsOkTree t = true →
      ∃ t2, convPass k t = Except.ok t2 ∧ tagsOkTree t2 = true := by
  intro t
  induction t with
  | hnil => intro _; exact ⟨HTree.hnil, rfl, rfl⟩
  | htext s sib ih =>
    intro h
    obtain ⟨s2, h1, h2⟩ := ih h
    exact ⟨HTree.htext s s2, by simp [convPass, h1, Except.map], h2⟩
  | helem n a ch sib ihch ihsib =>
    intro h
    simp only [tagsOkTree, Bool.and_eq_true] at h
    obtain ⟨⟨hc, hch⟩, hsib⟩ := h
    obtain ⟨ch2, hch1, hch2⟩ := ihch hch
    obtain ⟨sib2, hsib1, hsib2⟩ := ihsib hsib
    unfold convPass
    by_cases hn : n = k
    · subst hn
      by_cases hrk : replacingKind n = true
      · cases hconv : convert_custom_oppia_tags_to_generic_tags n a ch with
        | error e => rw [hconv] at hc; cases hc
        | ok r =>
          refine ⟨HTree.helem r.1 r.2.1 r.2.2 sib2, ?_, ?_⟩
          · simp [hrk, hconv, validateKind_ok n ch hch, hsib1, Except.map]
          · simp only [tagsOkTree, Bool.and_eq_true]
            refine ⟨⟨?_, conv_children_ok n a ch r hconv hch⟩, hsib2⟩
            rw [conv_fst n a ch r hconv, conv_p_ok]
            rfl
      · refine ⟨HTree.helem "p" a ch2 sib2, ?_, ?_⟩
        · simp [hrk, hch1, hsib1, Except.map]
        · simp only [tagsOkTree, Bool.and_eq_true]
          exact ⟨⟨by rw [conv_p_ok]; rfl, hch2⟩, hsib2⟩
    · refine ⟨HTree.helem n a ch2 sib2, ?_, ?_⟩
      · simp [hn, hch1, hsib1, Except.map]
      · simp only [tagsOkTree, Bool.and_eq_true]
        refine ⟨⟨?_, hch2⟩, hsib2⟩
        rw [← conv_ok_indep_children n a ch ch2]
        exact hc

/-- The whole conversion loop succeeds on a tree whose custom tags all
decode. -/
theorem convertAllTags_ok_aux :
    ∀ (ks : List String) (t : HTree), tagsOkTree t = true →
      ∃ t2, ks.foldlM (fun tr k => convPass k tr) t = Except.ok t2 ∧
        tagsOkTree t2 = true := by
  intro ks
  induction ks with
  | nil => intro t h; exact ⟨t, rfl, h⟩
  | cons k rest ih =>
    intro t h
    obtain ⟨t1, h1, h2⟩ := convPass_ok k t h
    obtain ⟨t2, h3, h4⟩ := ih t1 h2
    refine ⟨t2, ?_, h4⟩
    simp only [List.foldlM_cons, h1]
    exact h3

/-- C4 (amended): normalization is total except for custom tags whose
designated attribute does not decode — for every markup string whose
custom Oppia tags all carry decodable attributes, parse_html returns a
result and never an error; malformed markup (unclosed tags, stray
brackets, unknown entities) degrades to best-effort extraction. -/
theorem C4_normalization_total (m : String)
    (h : tagsOkTree (htmlTreeOf m) = true) :
    ∃ s, parse_html m = Except.ok s := by
  obtain ⟨t2, h1, _⟩ := convertAllTags_ok_aux ALLOWED_CUSTOM_OPPIA_RTE_TAGS (htmlTreeOf m) h
  refine ⟨getTextStrip t2, ?_⟩
  unfold parse_html convertAllTags
  rw [h1]
  rfl

set_option maxRecDepth 100000 in
/-- Witness for C4 (amended) at concrete malformed markup without custom
tags. -/
theorem C4_normalization_total_witness :
    tagsOkTree (htmlTreeOf "<p>unclosed <em>hello & <b>42") = true ∧
    ∃ s, parse_html "<p>unclosed <em>hello & <b>42" = Except.ok s :=
  ⟨by decide, C4_normalization_total _ (by decide)⟩

/-! ## Claims about the live synthesis provider -/

/-- C6 counterexample: with the AZURE_TTS_API_KEY secret absent, the live
provider raises (Except.error models the raised exception) instead of
returning a structured failure triple; the remote endpoint is never
contacted (the flag is false), but the claimed no-crash behavior is
false. -/
theorem C6_counterexample :
    regenerate_speech_from_text none [("en-US", "en-US-AriaNeural")]
      ⟨[], ⟨[], SpeechResultReason.synthesizingAudioCompleted,
        ⟨SpeechCancellationReason.error, ""⟩⟩⟩ "This is a test text" "en-US" =
      (Except.error "Azure TTS API key is not available.", false) := by decide

/-- C6 (amended): with the secret absent the live provider fails fast by
raising an exception carrying the fixed message, before any contact with
the remote synthesis endpoint. -/
theorem C6_credential_missing (voiceMap : List (String × String))
    (remote : AzureRemoteBehavior) (plaintext language_accent_code : String) :
    regenerate_speech_from_text none voiceMap remote plaintext language_accent_code =
      (Except.error "Azure TTS API key is not available.", false) := rfl

/-- C5 counterexample: a remote call that completes with a cancellation
whose reason is not Error yields a success outcome with a None error
description, not a failure outcome — so not every cancellation yields a
failure. -/
theorem C5_counterexample :
    regenerate_speech_from_text (some "azure_key") [("en-US", "en-US-AriaNeural")]
      ⟨[], ⟨[], SpeechResultReason.canceled,
        ⟨SpeechCancellationReason.cancelledByUser, "synthesis canceled by user"⟩⟩⟩
      "This is a test text" "en-US" =
      (Except.ok ([], [], none), true) := by decide

/-- C5 (amended): with the secret available and the accent mapped, the
live provider returns the raw audio bytes, the collected timing sequence,
and an error description that is the provider's message verbatim exactly
when the remote call completed as canceled with cancellation reason
Error; every other outcome (including cancellations with other reasons)
carries a None error. -/
theorem C5_synthesis_outcome (secret_val voice plaintext language_accent_code : String)
    (voiceMap : List (String × String)) (remote : AzureRemoteBehavior)
    (hv : get_azure_voicecode_from_language_accent_code voiceMap language_accent_code =
      Except.ok voice) :
    regenerate_speech_from_text (some secret_val) voiceMap remote plaintext
        language_accent_code =
      (Except.ok (remote.result.audio_data, wordBoundaryCollect remote.events,
        if remote.result.reason = SpeechResultReason.canceled ∧
            remote.result.cancellation_details.reason = SpeechCancellationReason.error
          then some remote.result.cancellation_details.error_details
          else none), true) := by
  unfold regenerate_speech_from_text convert_plaintext_to_ssml_content
  rw [hv]
  by_cases h1 : remote.result.reason = SpeechResultReason.canceled <;>
    by_cases h2 : remote.result.cancellation_details.reason =
      SpeechCancellationReason.error <;>
    simp [h1, h2]

/-- Witness for C5 (amended) at a concrete erroring cancellation. -/
theorem C5_synthesis_outcome_witness :
    regenerate_speech_from_text (some "azure_key") [("en-US", "voice")]
      ⟨[⟨"Hello", 10000⟩], ⟨[1, 2, 3], SpeechResultReason.canceled,
        ⟨SpeechCancellationReason.error, "boom"⟩⟩⟩ "Hello" "en-US" =
      (Except.ok ([1, 2, 3], wordBoundaryCollect [⟨"Hello", 10000⟩],
        if (SpeechResultReason.canceled = SpeechResultReason.canceled ∧
            SpeechCancellationReason.error = SpeechCancellationReason.error)
          then some "boom" else none), true) :=
  C5_synthesis_outcome "azure_key" "voice" "Hello" "en-US"
    [("en-US", "voice")] _ (by decide)

/-! ## Claims about the orchestrator: store lemmas and path
characterizations -/

/-- Reading a key just written to the datastore. -/
theorem dsGet_dsPut_same (store : Datastore) (id : String)
    (m : CachedAutomaticVoiceoversModel) : dsGet (dsPut store id m) id = some m := by
  simp [dsGet, dsPut, List.find?]

/-- Reading another key after a datastore write. -/
theorem dsGet_dsPut_ne (store : Datastore) (id id2 : String)
    (m : CachedAutomaticVoiceoversModel) (h : id2 ≠ id) :
    dsGet (dsPut store id m) id2 = dsGet store id2 := by
  have h2 : ¬ (id = id2) := fun e => h e.symm
  simp [dsGet, dsPut, List.find?, h2]

/-- Reading from a single-entry datastore at its key. -/
theorem dsGet_singleton (id : String) (m : CachedAutomaticVoiceoversModel) :
    dsGet [(id, m)] id = some m := by
  simp [dsGet, List.find?]

/-- Reading a blob just committed. -/
theorem fsGet_commit_same (blobs : BlobStore) (k : String) (d : List Nat) :
    fsGet (fsCommit blobs k d) k = some d := by
  simp [fsGet, fsCommit, List.find?]

/-- Reading another key after a blob commit. -/
theorem fsGet_commit_ne (blobs : BlobStore) (k k2 : String) (d2 : List Nat)
    (h : k ≠ k2) : fsGet (fsCommit blobs k2 d2) k = fsGet blobs k := by
  have h2 : ¬ (k2 = k) := fun e => h e.symm
  simp [fsGet, fsCommit, List.find?, h2]

/-- Re-committing the very bytes a key already holds keeps that key
readable with those bytes. -/
theorem fsGet_commit_same_val (blobs : BlobStore) (k k2 : String) (d : List Nat)
    (h : fsGet blobs k = some d) : fsGet (fsCommit blobs k2 d) k = some d := by
  by_cases hk : k = k2
  · subst hk
    exact fsGet_commit_same blobs k d
  · rw [fsGet_commit_ne blobs k k2 d hk]
    exact h

/-- A present blob stays readable across a commit under any key. -/
theorem fsGet_commit_isSome (blobs : BlobStore) (k k2 : String) (d d2 : List Nat)
    (h : fsGet blobs k = some d) : ∃ d3, fsGet (fsCommit blobs k2 d2) k = some d3 := by
  by_cases hk : k = k2
  · subst hk
    exact ⟨d2, fsGet_commit_same blobs k d2⟩
  · exact ⟨d, by rw [fsGet_commit_ne blobs k k2 d2 hk]; exact h⟩

/-- Whether a provider behavior makes the synthesis branch fail (a raised
exception, or a returned error description that is truthy, i.e. non-None
and nonempty). -/
def providerFails : ProviderBehavior → Bool
  | ProviderBehavior.raises _ => true
  | ProviderBehavior.returns _ _ err => errTruthy err

/-- The message of the exception the orchestrator raises for a failing
provider behavior: the raised message when nonempty, the NameError for an
empty raised message, and the returned error description otherwise. -/
def providerErrMsg : ProviderBehavior → String
  | ProviderBehavior.raises msg =>
    if msg ≠ "" then msg else "NameError: name binary_audio_data is not defined"
  | ProviderBehavior.returns _ _ err => err.getD ""

/-- Characterization: a failing provider behavior makes the synthesis
branch raise and leave the state untouched. -/
theorem runSynth_fail (provider : ProviderBehavior) (st : OrchestratorState)
    (eid t accent fn : String) (cmo : Option CachedAutomaticVoiceoversModel)
    (hf : providerFails provider = true) :
    runSynthesisPath provider st eid t accent fn cmo =
      ⟨Except.error (providerErrMsg provider), st, true⟩ := by
  cases provider with
  | raises msg =>
    by_cases h : msg = ""
    · simp [runSynthesisPath, providerErrMsg, h]
    · simp [runSynthesisPath, providerErrMsg, h]
  | returns audio toks err =>
    simp only [providerFails] at hf
    simp [runSynthesisPath, providerErrMsg, hf]

/-- Characterization: a non-failing provider return whose bytes do not
parse as MPEG audio raises before any blob or cache side effect. -/
theorem runSynth_badmp3 (st : OrchestratorState) (eid t accent fn : String)
    (cmo : Option CachedAutomaticVoiceoversModel)
    (audio : List Nat) (toks : List TimingTok) (err : Option String)
    (he : errTruthy err = false) (hmp3 : mp3HeaderFound audio = false) :
    runSynthesisPath (ProviderBehavior.returns audio toks err) st eid t accent fn cmo =
      ⟨Except.error mp3HeaderErr, st, true⟩ := by
  simp [runSynthesisPath, he, hmp3]

/-- Characterization: a non-failing provider return of parseable audio on
a cache miss commits the blob and creates the cache entry. -/
theorem runSynth_create (st : OrchestratorState) (eid t accent fn : String)
    (audio : List Nat) (toks : List TimingTok) (err : Option String)
    (he : errTruthy err = false) (hmp3 : mp3HeaderFound audio = true) :
    runSynthesisPath (ProviderBehavior.returns audio toks err) st eid t accent fn none =
      ⟨Except.ok toks,
        ⟨dsPut st.cache (create_cache_model accent t fn toks).id
            (create_cache_model accent t fn toks),
          fsCommit st.blobs (audioBlobKey eid fn) audio⟩, true⟩ := by
  simp [runSynthesisPath, he, hmp3]

/-- Characterization: a non-failing provider return of parseable audio on
a collision with a strictly shorter candidate overwrites the entry's
plaintext, filename and offsets. -/
theorem runSynth_collision_update (st : OrchestratorState) (eid t accent fn : String)
    (cm : CachedAutomaticVoiceoversModel) (audio : List Nat) (toks : List TimingTok)
    (err : Option String) (he : errTruthy err = false)
    (hmp3 : mp3HeaderFound audio = true)
    (hne : cm.plaintext ≠ t) (hlt : t.length < cm.plaintext.length) :
    runSynthesisPath (ProviderBehavior.returns audio toks err) st eid t accent fn
        (some cm) =
      ⟨Except.ok toks,
        ⟨dsPut st.cache cm.id
            { cm with plaintext := t, voiceover_filename := fn, audio_offset_list := toks },
          fsCommit st.blobs (audioBlobKey eid fn) audio⟩, true⟩ := by
  simp [runSynthesisPath, he, hmp3, hne, hlt]

/-- Characterization: a non-failing provider return of parseable audio on
a collision with a candidate that is not shorter leaves the cache
untouched. -/
theorem runSynth_collision_keep (st : OrchestratorState) (eid t accent fn : String)
    (cm : CachedAutomaticVoiceoversModel) (audio : List Nat) (toks : List TimingTok)
    (err : Option String) (he : errTruthy err = false)
    (hmp3 : mp3HeaderFound audio = true)
    (hne : cm.plaintext ≠ t) (hge : ¬ t.length < cm.plaintext.length) :
    runSynthesisPath (ProviderBehavior.returns audio toks err) st eid t accent fn
        (some cm) =
      ⟨Except.ok toks,
        ⟨st.cache, fsCommit st.blobs (audioBlobKey eid fn) audio⟩, true⟩ := by
  simp [runSynthesisPath, he, hmp3, hne, hge]

/-- Characterization: a markup string that fails to normalize makes the
whole call raise without touching anything. -/
theorem synth_parse_err (provider : ProviderBehavior) (st : OrchestratorState)
    (eid m accent fn e : String) (hp : parse_html m = Except.error e) :
    synthesize_voiceover_for_html_string provider st eid m accent fn =
      ⟨Except.error e, st, false⟩ := by
  unfold synthesize_voiceover_for_html_string
  rw [hp]

/-- Characterization of the cache-hit path: matching plaintext and a
readable blob that parses as MPEG audio reuse the stored offsets,
re-commit the blob under the target filename, and never invoke the
provider. -/
theorem synth_hit (provider : ProviderBehavior) (st : OrchestratorState)
    (eid m accent fn t : String) (cm : CachedAutomaticVoiceoversModel)
    (data : List Nat)
    (hp : parse_html m = Except.ok t)
    (hc : get_cached_automatic_voiceover_model st.cache (generate_hash_from_text t)
      accent OPPIA_AUTOMATIC_VOICEOVER_PROVIDER = some cm)
    (hm : cm.plaintext = t)
    (hb : fsGet st.blobs (audioBlobKey eid cm.voiceover_filename) = some data)
    (hmp3 : mp3HeaderFound data = true) :
    synthesize_voiceover_for_html_string provider st eid m accent fn =
      ⟨Except.ok cm.audio_offset_list,
        ⟨st.cache, fsCommit st.blobs (audioBlobKey eid fn) data⟩, false⟩ := by
  unfold synthesize_voiceover_for_html_string
  rw [hp]
  simp [hc, hm, hb, hmp3]

/-- Characterization of the cache-hit path when the stored blob does not
parse as MPEG audio: the parse raises before the commit, and the
provider is never invoked. -/
theorem synth_hit_badmp3 (provider : ProviderBehavior) (st : OrchestratorState)
    (eid m accent fn t : String) (cm : CachedAutomaticVoiceoversModel)
    (data : List Nat)
    (hp : parse_html m = Except.ok t)
    (hc : get_cached_automatic_voiceover_model st.cache (generate_hash_from_text t)
      accent OPPIA_AUTOMATIC_VOICEOVER_PROVIDER = some cm)
    (hm : cm.plaintext = t)
    (hb : fsGet st.blobs (audioBlobKey eid cm.voiceover_filename) = some data)
    (hmp3 : mp3HeaderFound data = false) :
    synthesize_voiceover_for_html_string provider st eid m accent fn =
      ⟨Except.error mp3HeaderErr, st, false⟩ := by
  unfold synthesize_voiceover_for_html_string
  rw [hp]
  simp [hc, hm, hb, hmp3]

/-- Characterization of the cache-hit path with a missing blob: fs.get
raises before any synthesis. -/
theorem synth_hit_noblob (provider : ProviderBehavior) (st : OrchestratorState)
    (eid m accent fn t : String) (cm : CachedAutomaticVoiceoversModel)
    (hp : parse_html m = Except.ok t)
    (hc : get_cached_automatic_voiceover_model st.cache (generate_hash_from_text t)
      accent OPPIA_AUTOMATIC_VOICEOVER_PROVIDER = some cm)
    (hm : cm.plaintext = t)
    (hb : fsGet st.blobs (audioBlobKey eid cm.voiceover_filename) = none) :
    synthesize_voiceover_for_html_string provider st eid m accent fn =
      ⟨Except.error "NotFoundError: file not found", st, false⟩ := by
  unfold synthesize_voiceover_for_html_string
  rw [hp]
  simp [hc, hm, hb]

/-- Characterization of the cache-miss path. -/
theorem synth_miss (provider : ProviderBehavior) (st : OrchestratorState)
    (eid m accent fn t : String)
    (hp : parse_html m = Except.ok t)
    (hc : get_cached_automatic_voiceover_model st.cache (generate_hash_from_text t)
      accent OPPIA_AUTOMATIC_VOICEOVER_PROVIDER = none) :
    synthesize_voiceover_for_html_string provider st eid m accent fn =
      runSynthesisPath provider st eid t accent fn none := by
  unfold synthesize_voiceover_for_html_string
  rw [hp]
  simp [hc]

/-- Characterization of the collision path (entry present, plaintext
mismatch). -/
theorem synth_collision (provider : ProviderBehavior) (st : OrchestratorState)
    (eid m accent fn t : String) (cm : CachedAutomaticVoiceoversModel)
    (hp : parse_html m = Except.ok t)
    (hc : get_cached_automatic_voiceover_model st.cache (generate_hash_from_text t)
      accent OPPIA_AUTOMATIC_VOICEOVER_PROVIDER = some cm)
    (hm : cm.plaintext ≠ t) :
    synthesize_voiceover_for_html_string provider st eid m accent fn =
      runSynthesisPath provider st eid t accent fn (some cm) := by
  unfold synthesize_voiceover_for_html_string
  rw [hp]
  simp [hc, hm]

/-- C2: on a hash collision (an entry exists at the candidate's key with
different plaintext), after successful synthesis (a provider return with
no error whose audio parses as MPEG) the entry's plaintext, voiceover
filename and timing list are overwritten with the candidate's values
when the candidate text is strictly shorter, and the entry is left
entirely untouched otherwise; both orderings of the two texts follow from
the two branches. -/
theorem C2_collision_favors_shorter
    (st : OrchestratorState) (eid m accent fn t : String)
    (cm : CachedAutomaticVoiceoversModel) (audio : List Nat) (toks : List TimingTok)
    (hp : parse_html m = Except.ok t)
    (hmp3 : mp3HeaderFound audio = true)
    (hid : cm.id = generate_id accent (generate_hash_from_text t)
      OPPIA_AUTOMATIC_VOICEOVER_PROVIDER)
    (hc : get_cached_automatic_voiceover_model st.cache (generate_hash_from_text t)
      accent OPPIA_AUTOMATIC_VOICEOVER_PROVIDER = some cm)
    (hne : cm.plaintext ≠ t) :
    (synthesize_voiceover_for_html_string (ProviderBehavior.returns audio toks none)
      st eid m accent fn).result = Except.ok toks ∧
    dsGet (synthesize_voiceover_for_html_string (ProviderBehavior.returns audio toks none)
        st eid m accent fn).state.cache cm.id =
      some (if t.length < cm.plaintext.length
        then { cm with plaintext := t, voiceover_filename := fn, audio_offset_list := toks }
        else cm) := by
  rw [synth_collision (ProviderBehavior.returns audio toks none) st eid m accent fn t cm
    hp hc hne]
  by_cases hlt : t.length < cm.plaintext.length
  · rw [runSynth_collision_update st eid t accent fn cm audio toks none rfl hmp3 hne hlt]
    refine ⟨rfl, ?_⟩
    rw [if_pos hlt]
    exact dsGet_dsPut_same _ _ _
  · rw [runSynth_collision_keep st eid t accent fn cm audio toks none rfl hmp3 hne hlt]
    refine ⟨rfl, ?_⟩
    rw [if_neg hlt, hid]
    exact hc

/-- A concrete cache entry used to witness the collision claims: it sits
at the key of the text "ab" but stores the longer plaintext "xyz"
(simulated collision, as the repository test does by direct cache
manipulation). -/
def collisionEntry : CachedAutomaticVoiceoversModel :=
  { id := generate_id "en-US" (generate_hash_from_text "ab")
      OPPIA_AUTOMATIC_VOICEOVER_PROVIDER
    language_accent_code := "en-US"
    provider := OPPIA_AUTOMATIC_VOICEOVER_PROVIDER
    hash_code := generate_hash_from_text "ab"
    plaintext := "xyz"
    voiceover_filename := "f0.mp3"
    audio_offset_list := [] }

/-- A state holding only the simulated-collision entry. -/
def collisionState : OrchestratorState := ⟨[(collisionEntry.id, collisionEntry)], []⟩

/-- Witness for C2 at the simulated-collision state, with MPEG-parseable
audio bytes (a frame-sync header). -/
theorem C2_collision_favors_shorter_witness :
    (synthesize_voiceover_for_html_string
      (ProviderBehavior.returns [255, 251, 144, 100] [⟨"ab", 5⟩] none)
      collisionState "exp" "<p>ab</p>" "en-US" "f1.mp3").result = Except.ok [⟨"ab", 5⟩] ∧
    dsGet (synthesize_voiceover_for_html_string
        (ProviderBehavior.returns [255, 251, 144, 100] [⟨"ab", 5⟩] none)
        collisionState "exp" "<p>ab</p>" "en-US" "f1.mp3").state.cache collisionEntry.id =
      some (if ("ab" : String).length < collisionEntry.plaintext.length
        then { collisionEntry with plaintext := "ab", voiceover_filename := "f1.mp3", audio_offset_list := [⟨"ab", 5⟩] }
        else collisionEntry) :=
  C2_collision_favors_shorter collisionState "exp" "<p>ab</p>" "en-US" "f1.mp3" "ab"
    collisionEntry [255, 251, 144, 100] [⟨"ab", 5⟩] (by decide) (by decide) rfl
    (dsGet_singleton _ _) (by decide)

/-- C10: frame property of the cache write-back after successful
synthesis (a provider return with no error whose audio parses as MPEG) —
a collision update with a strictly shorter candidate changes only
plaintext, voiceover_filename and audio_offset_list (id,
language_accent_code, provider and hash_code are written back
unchanged); a candidate that is not shorter leaves the cache exactly as
it was; a newly created entry has
id = accent:hash(plaintext):provider and hash_code = hash(plaintext). -/
theorem C10_cache_frame (st : OrchestratorState) (eid m accent fn t : String)
    (audio : List Nat) (toks : List TimingTok)
    (hp : parse_html m = Except.ok t)
    (hmp3 : mp3HeaderFound audio = true) :
    (∀ cm : CachedAutomaticVoiceoversModel,
      get_cached_automatic_voiceover_model st.cache (generate_hash_from_text t)
        accent OPPIA_AUTOMATIC_VOICEOVER_PROVIDER = some cm →
      cm.plaintext ≠ t →
      (t.length < cm.plaintext.length →
        dsGet (synthesize_voiceover_for_html_string
            (ProviderBehavior.returns audio toks none) st eid m accent fn).state.cache
            cm.id =
          some { cm with plaintext := t, voiceover_filename := fn, audio_offset_list := toks }) ∧
      (¬ t.length < cm.plaintext.length →
        (synthesize_voiceover_for_html_string
          (ProviderBehavior.returns audio toks none) st eid m accent fn).state.cache =
          st.cache)) ∧
    (get_cached_automatic_voiceover_model st.cache (generate_hash_from_text t)
        accent OPPIA_AUTOMATIC_VOICEOVER_PROVIDER = none →
      ∃ e : CachedAutomaticVoiceoversModel,
        dsGet (synthesize_voiceover_for_html_string
            (ProviderBehavior.returns audio toks none) st eid m accent fn).state.cache
          (generate_id accent (generate_hash_from_text t)
            OPPIA_AUTOMATIC_VOICEOVER_PROVIDER) = some e ∧
        e.id = generate_id e.language_accent_code
          (generate_hash_from_text e.plaintext) e.provider ∧
        e.hash_code = generate_hash_from_text e.plaintext) := by
  constructor
  · intro cm hc hne
    rw [synth_collision (ProviderBehavior.returns audio toks none) st eid m accent fn t cm
      hp hc hne]
    constructor
    · intro hlt
      rw [runSynth_collision_update st eid t accent fn cm audio toks none rfl hmp3 hne
        hlt]
      exact dsGet_dsPut_same _ _ _
    · intro hge
      rw [runSynth_collision_keep st eid t accent fn cm audio toks none rfl hmp3 hne hge]
  · intro hc
    rw [synth_miss (ProviderBehavior.returns audio toks none) st eid m accent fn t hp hc]
    rw [runSynth_create st eid t accent fn audio toks none rfl hmp3]
    exact ⟨create_cache_model accent t fn toks, dsGet_dsPut_same _ _ _, rfl, rfl⟩

/-- Witness for C10 at the empty state (new-entry branch), with
MPEG-parseable audio bytes. -/
theorem C10_cache_frame_witness :
    ∃ e : CachedAutomaticVoiceoversModel,
      dsGet (synthesize_voiceover_for_html_string
          (ProviderBehavior.returns [255, 251, 144, 100] [⟨"ab", 5⟩] none) ⟨[], []⟩
          "exp" "<p>ab</p>" "en-US" "f1.mp3").state.cache
        (generate_id "en-US" (generate_hash_from_text "ab")
          OPPIA_AUTOMATIC_VOICEOVER_PROVIDER) = some e ∧
      e.id = generate_id e.language_accent_code
        (generate_hash_from_text e.plaintext) e.provider ∧
      e.hash_code = generate_hash_from_text e.plaintext :=
  (C10_cache_frame ⟨[], []⟩ "exp" "<p>ab</p>" "en-US" "f1.mp3" "ab"
    [255, 251, 144, 100] [⟨"ab", 5⟩] (by decide) (by decide)).2 rfl

/-- C3 counterexample: a provider return with the non-None error
description "" and MPEG-parseable audio is treated as success by the
`if error_details:` truthiness check — the call raises nothing, returns
the offsets, and commits the blob, so a non-None error description does
not imply the claimed no-residue failure. -/
theorem C3_counterexample :
    (synthesize_voiceover_for_html_string
      (ProviderBehavior.returns [255, 251, 144, 100] [] (some ""))
      ⟨[], []⟩ "exp" "<p>hi</p>" "en-US" "f.mp3").result = Except.ok [] ∧
    (synthesize_voiceover_for_html_string
      (ProviderBehavior.returns [255, 251, 144, 100] [] (some ""))
      ⟨[], []⟩ "exp" "<p>hi</p>" "en-US" "f.mp3").state.blobs =
      [(audioBlobKey "exp" "f.mp3", [255, 251, 144, 100])] := by
  rw [synth_miss (ProviderBehavior.returns [255, 251, 144, 100] [] (some "")) ⟨[], []⟩
    "exp" "<p>hi</p>" "en-US" "f.mp3" "hi" (by decide) rfl]
  rw [runSynth_create ⟨[], []⟩ "exp" "hi" "en-US" "f.mp3" [255, 251, 144, 100] []
    (some "") (by decide) (by decide)]
  exact ⟨rfl, rfl⟩

/-- C3 (amended): whenever the provider call fails — it raises, or it
returns an error description that is non-None and nonempty — and the
provider was actually invoked, the orchestrator raises an exception
carrying the provider's message (or a NameError when the raised message
is empty) and leaves the cache and the blob store exactly as they were;
a returned empty-string error description is instead treated as
success. -/
theorem C3_failure_no_residue (provider : ProviderBehavior) (st : OrchestratorState)
    (eid m accent fn : String)
    (hf : providerFails provider = true)
    (hinv : (synthesize_voiceover_for_html_string provider st eid m accent fn).providerInvoked
      = true) :
    synthesize_voiceover_for_html_string provider st eid m accent fn =
      ⟨Except.error (providerErrMsg provider), st, true⟩ := by
  cases hp : parse_html m with
  | error e =>
    rw [synth_parse_err provider st eid m accent fn e hp] at hinv
    cases hinv
  | ok t =>
    cases hc : get_cached_automatic_voiceover_model st.cache (generate_hash_from_text t)
        accent OPPIA_AUTOMATIC_VOICEOVER_PROVIDER with
    | none =>
      rw [synth_miss provider st eid m accent fn t hp hc]
      exact runSynth_fail provider st eid t accent fn none hf
    | some cm =>
      by_cases hm : cm.plaintext = t
      · cases hb : fsGet st.blobs (audioBlobKey eid cm.voiceover_filename) with
        | none =>
          rw [synth_hit_noblob provider st eid m accent fn t cm hp hc hm hb] at hinv
          cases hinv
        | some data =>
          cases hmp : mp3HeaderFound data with
          | false =>
            rw [synth_hit_badmp3 provider st eid m accent fn t cm data hp hc hm hb hmp]
              at hinv
            cases hinv
          | true =>
            rw [synth_hit provider st eid m accent fn t cm data hp hc hm hb hmp] at hinv
            cases hinv
      · rw [synth_collision provider st eid m accent fn t cm hp hc hm]
        exact runSynth_fail provider st eid t accent fn (some cm) hf

/-- Witness for C3 (amended) with a raising provider on the empty
state. -/
theorem C3_failure_no_residue_witness :
    synthesize_voiceover_for_html_string (ProviderBehavior.raises "boom") ⟨[], []⟩
      "exp" "<p>hi</p>" "en-US" "f.mp3" =
      ⟨Except.error (providerErrMsg (ProviderBehavior.raises "boom")), ⟨[], []⟩, true⟩ :=
  C3_failure_no_residue (ProviderBehavior.raises "boom") ⟨[], []⟩ "exp" "<p>hi</p>"
    "en-US" "f.mp3" (by decide)
    (by rw [synth_miss (ProviderBehavior.raises "boom") ⟨[], []⟩ "exp" "<p>hi</p>"
          "en-US" "f.mp3" "hi" (by decide) rfl]
        rfl)

/-- The cache lookup is a datastore read at the composite key. -/
theorem get_cached_eq (store : Datastore) (h a p : String) :
    get_cached_automatic_voiceover_model store h a p = dsGet store (generate_id a h p) :=
  rfl

/-- C1: if a prior successful synthesize_voiceover_for_html_string call
for markup normalizing to t left the cache entry at (accent, hash t,
provider) with plaintext exactly t, then a second call with markup
normalizing to t, the same accent and the same entity does not invoke the
synthesis provider and returns the stored audio_offset_list. -/
theorem C1_cache_hit_avoids_synthesis
    (p1 p2 : ProviderBehavior) (st0 : OrchestratorState)
    (eid m1 m2 accent fn1 fn2 t : String) (cm : CachedAutomaticVoiceoversModel)
    (ts1 : List TimingTok)
    (hp1 : parse_html m1 = Except.ok t)
    (hp2 : parse_html m2 = Except.ok t)
    (h1 : (synthesize_voiceover_for_html_string p1 st0 eid m1 accent fn1).result =
      Except.ok ts1)
    (hc : get_cached_automatic_voiceover_model
      (synthesize_voiceover_for_html_string p1 st0 eid m1 accent fn1).state.cache
      (generate_hash_from_text t) accent OPPIA_AUTOMATIC_VOICEOVER_PROVIDER = some cm)
    (hm : cm.plaintext = t) :
    (synthesize_voiceover_for_html_string p2
      (synthesize_voiceover_for_html_string p1 st0 eid m1 accent fn1).state
      eid m2 accent fn2).providerInvoked = false ∧
    (synthesize_voiceover_for_html_string p2
      (synthesize_voiceover_for_html_string p1 st0 eid m1 accent fn1).state
      eid m2 accent fn2).result = Except.ok cm.audio_offset_list := by
  have hblob : ∃ data, fsGet
      (synthesize_voiceover_for_html_string p1 st0 eid m1 accent fn1).state.blobs
      (audioBlobKey eid cm.voiceover_filename) = some data ∧
      mp3HeaderFound data = true := by
    cases hc0 : get_cached_automatic_voiceover_model st0.cache
        (generate_hash_from_text t) accent OPPIA_AUTOMATIC_VOICEOVER_PROVIDER with
    | some cm0 =>
      by_cases hm0 : cm0.plaintext = t
      · cases hb0 : fsGet st0.blobs (audioBlobKey eid cm0.voiceover_filename) with
        | none =>
          rw [synth_hit_noblob p1 st0 eid m1 accent fn1 t cm0 hp1 hc0 hm0 hb0] at h1
          simp at h1
        | some d0 =>
          cases hmp0 : mp3HeaderFound d0 with
          | false =>
            rw [synth_hit_badmp3 p1 st0 eid m1 accent fn1 t cm0 d0 hp1 hc0 hm0 hb0 hmp0]
              at h1
            simp at h1
          | true =>
            rw [synth_hit p1 st0 eid m1 accent fn1 t cm0 d0 hp1 hc0 hm0 hb0 hmp0]
              at hc ⊢
            have hcm : cm = cm0 := by
              have h2 : some cm0 = some cm := hc0.symm.trans hc
              exact (Option.some.inj h2).symm
            subst hcm
            exact ⟨d0, fsGet_commit_same_val st0.blobs
              (audioBlobKey eid cm.voiceover_filename) (audioBlobKey eid fn1) d0 hb0,
              hmp0⟩
      · rw [synth_collision p1 st0 eid m1 accent fn1 t cm0 hp1 hc0 hm0] at h1 hc ⊢
        cases p1 with
        | raises msg =>
          rw [runSynth_fail (ProviderBehavior.raises msg) st0 eid t accent fn1
            (some cm0) rfl] at h1
          simp at h1
        | returns audio toks err =>
          by_cases he : errTruthy err = true
          · rw [runSynth_fail (ProviderBehavior.returns audio toks err) st0 eid t accent
              fn1 (some cm0) (by simp [providerFails, he])] at h1
            simp at h1
          · have he2 : errTruthy err = false := by simpa using he
            cases hma : mp3HeaderFound audio with
            | false =>
              rw [runSynth_badmp3 st0 eid t accent fn1 (some cm0) audio toks err he2 hma]
                at h1
              simp at h1
            | true =>
              by_cases hlt : t.length < cm0.plaintext.length
              · rw [runSynth_collision_update st0 eid t accent fn1 cm0 audio toks err
                  he2 hma hm0 hlt] at hc ⊢
                rw [get_cached_eq] at hc
                by_cases hkey : cm0.id =
                    generate_id accent (generate_hash_from_text t)
                      OPPIA_AUTOMATIC_VOICEOVER_PROVIDER
                · rw [← hkey, dsGet_dsPut_same] at hc
                  have hcm : cm = { cm0 with plaintext := t, voiceover_filename := fn1, audio_offset_list := toks } := (Option.some.inj hc).symm
                  rw [hcm]
                  exact ⟨audio, fsGet_commit_same st0.blobs (audioBlobKey eid fn1) audio,
                    hma⟩
                · rw [dsGet_dsPut_ne st0.cache cm0.id _ _
                    (fun e => hkey e.symm)] at hc
                  rw [get_cached_eq] at hc0
                  have hcm : cm = cm0 := Option.some.inj (hc0.symm.trans hc) |>.symm
                  exact absurd (hcm ▸ hm) hm0
              · rw [runSynth_collision_keep st0 eid t accent fn1 cm0 audio toks err he2
                  hma hm0 hlt] at hc ⊢
                have hcm : cm = cm0 := Option.some.inj (hc0.symm.trans hc) |>.symm
                exact absurd (hcm ▸ hm) hm0
    | none =>
      rw [synth_miss p1 st0 eid m1 accent fn1 t hp1 hc0] at h1 hc ⊢
      cases p1 with
      | raises msg =>
        rw [runSynth_fail (ProviderBehavior.raises msg) st0 eid t accent fn1 none rfl]
          at h1
        simp at h1
      | returns audio toks err =>
        by_cases he : errTruthy err = true
        · rw [runSynth_fail (ProviderBehavior.returns audio toks err) st0 eid t accent
            fn1 none (by simp [providerFails, he])] at h1
          simp at h1
        · have he2 : errTruthy err = false := by simpa using he
          cases hma : mp3HeaderFound audio with
          | false =>
            rw [runSynth_badmp3 st0 eid t accent fn1 none audio toks err he2 hma] at h1
            simp at h1
          | true =>
            rw [runSynth_create st0 eid t accent fn1 audio toks err he2 hma] at hc ⊢
            have h3 : get_cached_automatic_voiceover_model
                (dsPut st0.cache (create_cache_model accent t fn1 toks).id
                  (create_cache_model accent t fn1 toks))
                (generate_hash_from_text t) accent OPPIA_AUTOMATIC_VOICEOVER_PROVIDER =
                some (create_cache_model accent t fn1 toks) :=
              dsGet_dsPut_same st0.cache (create_cache_model accent t fn1 toks).id
                (create_cache_model accent t fn1 toks)
            have hcm : cm = create_cache_model accent t fn1 toks :=
              Option.some.inj (h3.symm.trans hc) |>.symm
            rw [hcm]
            exact ⟨audio, fsGet_commit_same st0.blobs (audioBlobKey eid fn1) audio, hma⟩
  obtain ⟨data, hb, hdm⟩ := hblob
  rw [synth_hit p2 (synthesize_voiceover_for_html_string p1 st0 eid m1 accent fn1).state
    eid m2 accent fn2 t cm data hp2 hc hm hb hdm]
  exact ⟨rfl, rfl⟩

/-- Reading from a single-entry blob store at its key. -/
theorem fsGet_singleton (k : String) (d : List Nat) : fsGet [(k, d)] k = some d := by
  simp [fsGet, List.find?]

/-- A concrete cache entry whose plaintext is exactly the normalized text
of the witness markup, with its audio blob present. -/
def hitEntry : CachedAutomaticVoiceoversModel :=
  { id := generate_id "en-US" (generate_hash_from_text "ab")
      OPPIA_AUTOMATIC_VOICEOVER_PROVIDER
    language_accent_code := "en-US"
    provider := OPPIA_AUTOMATIC_VOICEOVER_PROVIDER
    hash_code := generate_hash_from_text "ab"
    plaintext := "ab"
    voiceover_filename := "f0.mp3"
    audio_offset_list := [⟨"ab", 7⟩] }

/-- A state holding the matching entry and its MPEG-parseable blob. -/
def hitState : OrchestratorState :=
  ⟨[(hitEntry.id, hitEntry)], [(audioBlobKey "exp" "f0.mp3", [255, 251, 144, 100])]⟩

set_option maxRecDepth 100000 in
/-- Witness for C1: a first successful call for the text followed by a
second call with the same markup and accent. -/
theorem C1_cache_hit_avoids_synthesis_witness :
    (synthesize_voiceover_for_html_string (ProviderBehavior.raises "unused")
      (synthesize_voiceover_for_html_string (ProviderBehavior.raises "unused") hitState
        "exp" "<p>ab</p>" "en-US" "f1.mp3").state
      "exp" "<p>ab</p>" "en-US" "f2.mp3").providerInvoked = false ∧
    (synthesize_voiceover_for_html_string (ProviderBehavior.raises "unused")
      (synthesize_voiceover_for_html_string (ProviderBehavior.raises "unused") hitState
        "exp" "<p>ab</p>" "en-US" "f1.mp3").state
      "exp" "<p>ab</p>" "en-US" "f2.mp3").result = Except.ok hitEntry.audio_offset_list := by
  have hhit : synthesize_voiceover_for_html_string (ProviderBehavior.raises "unused")
      hitState "exp" "<p>ab</p>" "en-US" "f1.mp3" =
      ⟨Except.ok hitEntry.audio_offset_list,
        ⟨hitState.cache,
          fsCommit hitState.blobs (audioBlobKey "exp" "f1.mp3") [255, 251, 144, 100]⟩,
        false⟩ :=
    synth_hit (ProviderBehavior.raises "unused") hitState "exp" "<p>ab</p>" "en-US"
      "f1.mp3" "ab" hitEntry [255, 251, 144, 100] (by decide) (dsGet_singleton _ _) rfl
      (fsGet_singleton _ _) (by decide)
  exact C1_cache_hit_avoids_synthesis (ProviderBehavior.raises "unused")
    (ProviderBehavior.raises "unused") hitState "exp" "<p>ab</p>" "<p>ab</p>" "en-US"
    "f1.mp3" "f2.mp3" "ab" hitEntry hitEntry.audio_offset_list (by decide) (by decide)
    (by rw [hhit]) (by rw [hhit]; exact dsGet_singleton _ _) rfl

/-! ## Claim C7: idempotence of normalization -/

/-- Rebuilding a string from its character list. -/
theorem strMk_data : ∀ s : String, String.mk s.data = s := fun ⟨_⟩ => rfl

/-- The two-sided strip is the right strip after the left strip. -/
theorem pstripList_eq_rdrop (l : List Char) :
    pstripList l = List.rdropWhile isPySpace (l.dropWhile isPySpace) := rfl

/-- A prefix of a front-stripped list is front-stripped. -/
theorem dropWhile_eq_self_of_front_part {a b : List Char}
    (hpre : a <+: b) (hb : b.dropWhile isPySpace = b) :
    a.dropWhile isPySpace = a := by
  rw [List.dropWhile_eq_self_iff] at hb ⊢
  intro hl
  have hlb : 0 < b.length := lt_of_lt_of_le hl hpre.length_le
  rw [hpre.get_eq hl]
  exact hb hlb

/-- The strip output is front-stripped. -/
theorem pstripList_front (x : List Char) :
    (pstripList x).dropWhile isPySpace = pstripList x := by
  rw [pstripList_eq_rdrop]
  exact dropWhile_eq_self_of_front_part ( List.rdropWhile_prefix _ _)
    (List.dropWhile_idempotent _ _)

/-- The strip output is back-stripped (its reversal is front-stripped). -/
theorem pstripList_back (x : List Char) :
    (pstripList x).reverse.dropWhile isPySpace = (pstripList x).reverse := by
  rw [pstripList_eq_rdrop, List.rdropWhile, List.reverse_reverse]
  exact List.dropWhile_idempotent _ _

/-- Stripping is idempotent. -/
theorem pstripList_idem (x : List Char) :
    pstripList (pstripList x) = pstripList x := by
  rw [pstripList_eq_rdrop (pstripList x), pstripList_front x, List.rdropWhile,
    pstripList_back x, List.reverse_reverse]

/-- Prepending a nonempty front-stripped list keeps a list
front-stripped. -/
theorem dropWhile_append_of_front {a : List Char} (b : List Char)
    (ha : a.dropWhile isPySpace = a) (hne : a ≠ []) :
    (a ++ b).dropWhile isPySpace = a ++ b := by
  cases a with
  | nil => exact absurd rfl hne
  | cons c t =>
    have hc : isPySpace c = false := by
      by_cases h : isPySpace c = true
      · rw [List.dropWhile_cons, if_pos h] at ha
        have := congrArg List.length ha
        have hle := (List.dropWhile_suffix (l := t) isPySpace).length_le
        simp at this
        omega
      · exact eq_false_of_ne_true h
    rw [List.cons_append, List.dropWhile_cons, hc]
    simp

/-- A separator-join of nonempty parts is nonempty. -/
theorem sepJoin_ne_nil (sep : List Char) :
    ∀ parts : List String, parts ≠ [] → (∀ p ∈ parts, p.data ≠ []) →
      sepJoin sep parts ≠ [] := by
  intro parts
  cases parts with
  | nil => intro h; exact absurd rfl h
  | cons p rest =>
    intro _ hp
    cases rest with
    | nil => exact hp p (List.mem_singleton.mpr rfl)
    | cons p2 rest2 =>
      show p.data ++ sep ++ sepJoin sep (p2 :: rest2) ≠ []
      simp only [ne_eq, List.append_eq_nil, not_and]
      intro h
      exact absurd h.1 (hp p (List.mem_cons_self _ _))

/-- A separator-join of front-stripped nonempty parts is
front-stripped. -/
theorem sepJoin_front (sep : List Char) :
    ∀ parts : List String,
      (∀ p ∈ parts, p.data.dropWhile isPySpace = p.data ∧ p.data ≠ []) →
      (sepJoin sep parts).dropWhile isPySpace = sepJoin sep parts := by
  intro parts h
  cases parts with
  | nil => rfl
  | cons p rest =>
    cases rest with
    | nil => exact (h p (List.mem_singleton.mpr rfl)).1
    | cons p2 rest2 =>
      show List.dropWhile isPySpace (p.data ++ sep ++ sepJoin sep (p2 :: rest2)) =
        p.data ++ sep ++ sepJoin sep (p2 :: rest2)
      rw [List.append_assoc]
      exact dropWhile_append_of_front _ (h p (List.mem_cons_self _ _)).1
        (h p (List.mem_cons_self _ _)).2

/-- A separator-join of back-stripped nonempty parts is back-stripped. -/
theorem sepJoin_back (sep : List Char) :
    ∀ parts : List String,
      (∀ p ∈ parts, p.data.reverse.dropWhile isPySpace = p.data.reverse ∧ p.data ≠ []) →
      (sepJoin sep parts).reverse.dropWhile isPySpace = (sepJoin sep parts).reverse := by
  intro parts
  induction parts with
  | nil => intro _; rfl
  | cons p rest ih =>
    intro h
    cases rest with
    | nil => exact (h p (List.mem_singleton.mpr rfl)).1
    | cons p2 rest2 =>
      have hJ : sepJoin sep (p2 :: rest2) ≠ [] :=
        sepJoin_ne_nil sep (p2 :: rest2) (by simp)
          (fun x hx => (h x (List.mem_cons_of_mem _ hx)).2)
      have hJback : (sepJoin sep (p2 :: rest2)).reverse.dropWhile isPySpace =
          (sepJoin sep (p2 :: rest2)).reverse :=
        ih (fun x hx => h x (List.mem_cons_of_mem _ hx))
      show List.dropWhile isPySpace (p.data ++ sep ++ sepJoin sep (p2 :: rest2)).reverse =
        (p.data ++ sep ++ sepJoin sep (p2 :: rest2)).reverse
      simp only [List.reverse_append, List.append_assoc]
      refine dropWhile_append_of_front _ hJback ?_
      simp only [ne_eq, List.reverse_eq_nil_iff]
      exact hJ

/-- A separator-join of stripped nonempty parts is unchanged by
stripping. -/
theorem sepJoin_stripped (sep : List Char) (parts : List String)
    (h : ∀ p ∈ parts, p.data.dropWhile isPySpace = p.data ∧
      p.data.reverse.dropWhile isPySpace = p.data.reverse ∧ p.data ≠ []) :
    pstripList (sepJoin sep parts) = sepJoin sep parts := by
  rw [pstripList_eq_rdrop,
    sepJoin_front sep parts (fun p hp => ⟨(h p hp).1, (h p hp).2.2⟩),
    List.rdropWhile,
    sepJoin_back sep parts (fun p hp => ⟨(h p hp).2.1, (h p hp).2.2⟩),
    List.reverse_reverse]

/-- Every string produced by getTextStrip is unchanged by stripping. -/
theorem pstrip_getTextStrip (t : HTree) : pstrip (getTextStrip t) = getTextStrip t := by
  unfold getTextStrip pstrip
  congr 1
  show pstripList (String.mk _).data = _
  refine sepJoin_stripped _ _ ?_
  intro p hp
  rw [List.mem_filter] at hp
  obtain ⟨hp1, hp2⟩ := hp
  rw [List.mem_map] at hp1
  obtain ⟨x, _, rfl⟩ := hp1
  refine ⟨?_, ?_, ?_⟩
  · show (String.mk (pstripList x.data)).data.dropWhile isPySpace = _
    exact pstripList_front x.data
  · exact pstripList_back x.data
  · intro hd
    have hnil : pstripList x.data = [] := hd
    have hp3 : ¬ (String.mk (pstripList x.data) = "") := of_decide_eq_true hp2
    exact hp3 (by rw [hnil])

/-- Tokenizing input without a left angle bracket accumulates a single
data run. -/
theorem tokenizeAux_no_lt :
    ∀ (l acc : List Char) (fuel : Nat), l.length ≤ fuel →
      (∀ c ∈ l, c ≠ '<') → tokenizeAux fuel acc l = flushData (l.reverse ++ acc) [] := by
  intro l
  induction l with
  | nil =>
    intro acc fuel _ _
    cases fuel <;> simp [tokenizeAux]
  | cons c rest ih =>
    intro acc fuel hf hl
    cases fuel with
    | zero => simp at hf
    | succ f =>
      have hc : ¬ (c = '<') := hl c (List.mem_cons_self _ _)
      show (if c = '<' then _ else tokenizeAux f (c :: acc) rest) = _
      rw [if_neg hc, ih (c :: acc) f (by simp at hf; omega)
        (fun x hx => hl x (List.mem_cons_of_mem _ hx))]
      simp

/-- Unescaping input without an ampersand is the identity. -/
theorem unescAux_no_amp :
    ∀ l : List Char, (∀ c ∈ l, c ≠ '&') → unescAux none l = l := by
  intro l
  induction l with
  | nil => intro _; rfl
  | cons c rest ih =>
    intro h
    have hc : ¬ (c = '&') := h c (List.mem_cons_self _ _)
    show (if c = '&' then _ else c :: unescAux none rest) = _
    rw [if_neg hc, ih (fun x hx => h x (List.mem_cons_of_mem _ hx))]

/-- parse_html on plain text (no tags, no character references, already
stripped, nonempty) is the identity. -/
theorem parse_plain (s : String)
    (hlt : ∀ c ∈ s.data, c ≠ '<')
    (hamp : ∀ c ∈ s.data, c ≠ '&')
    (hne : s ≠ "")
    (hstrip : pstrip s = s) :
    parse_html s = Except.ok s := by
  have hdata : s.data ≠ [] := by
    intro hd
    apply hne
    rw [← strMk_data s, hd]
  have htok : tokenizePy s = [HTok.tdata s] := by
    unfold tokenizePy
    rw [tokenizeAux_no_lt s.data [] (s.data.length + 1) (by omega) hlt]
    unfold flushData
    rw [if_neg (by simp [hdata])]
    rw [List.append_nil, List.reverse_reverse]
    unfold pyUnescape
    rw [unescAux_no_amp s.data hamp, strMk_data]
  have htree : htmlTreeOf s = HTree.htext s HTree.hnil := by
    unfold htmlTreeOf
    rw [htok]
    rfl
  have hconv : convertAllTags (HTree.htext s HTree.hnil) =
      Except.ok (HTree.htext s HTree.hnil) := rfl
  unfold parse_html
  rw [htree, hconv]
  show Except.ok (getTextStrip (HTree.htext s HTree.hnil)) = Except.ok s
  unfold getTextStrip getStrings getStrings
  have hps : pstrip s = s := hstrip
  simp only [List.map_cons, List.map_nil, hps]
  rw [List.filter_cons_of_pos (by simp [hne]), List.filter_nil]
  exact congrArg Except.ok (strMk_data s)

set_option maxRecDepth 100000 in
/-- C7 counterexample: with wrap the trivial re-embedding of plain text as
markup, normalization is not idempotent — the markup m given by the
character reference for an escaped left angle bracket normalizes to a
string that re-normalizes differently:
parse_html(parse_html(m)) = "<" while parse_html(m) = "&lt;". -/
theorem C7_counterexample :
    parse_html "&amp;lt;" = Except.ok "&lt;" ∧
    parse_html "&lt;" = Except.ok "<" ∧
    ("<" : String) ≠ "&lt;" :=
  ⟨by decide, by decide, by decide⟩

/-- C7 (amended): normalization is idempotent on every markup whose
normalized output contains no markup-significant character (no left angle
bracket and no ampersand): re-embedding such an output as trivial markup
and normalizing again returns it unchanged.  (The counterexample shows
the restriction is necessary: outputs that contain such characters are
re-interpreted as markup.) -/
theorem C7_idempotence (m out : String)
    (h : parse_html m = Except.ok out)
    (hamp : ∀ c ∈ out.data, c ≠ '&')
    (hlt : ∀ c ∈ out.data, c ≠ '<') :
    parse_html out = Except.ok out := by
  have hstrip : pstrip out = out := by
    unfold parse_html at h
    cases hconv : convertAllTags (htmlTreeOf m) with
    | error e => rw [hconv] at h; simp [Except.map] at h
    | ok t2 =>
      rw [hconv] at h
      simp only [Except.map] at h
      have hout : getTextStrip t2 = out := Except.ok.inj h
      rw [← hout]
      exact pstrip_getTextStrip t2
  by_cases hne : out = ""
  · rw [hne]
    decide
  · exact parse_plain out hlt hamp hne hstrip

set_option maxRecDepth 100000 in
/-- Witness for C7 (amended) on concrete markup whose output is plain. -/
theorem C7_idempotence_witness :
    parse_html "a; b" = Except.ok "a; b" :=
  C7_idempotence "<p> a </p>\n<p>b</p>" "a; b" (by decide) (by decide) (by decide)
